import Mathlib

/-!
# TLMu loader and bridge (`tlmu.c`)

A shallow embedding of the instance controller, the module store (`copylib`),
the symbol binder (`tlmu_load`) and the bus bridge of `tlmu.c`, and of the
interrupt-line loop of `zynq_get_irqs` and the boot CPU loop of `tlm_zynq_init`
in `tlm_zynq.c`, followed by the properties proved about them.

Conventions of the embedding:

* a C pointer is an `Option`: `none` is `NULL`, `some a` a non-null address;
* `struct tlmu` is declared in `tlmu.h`; its fields are taken from their uses
  in `tlmu.c`, and the number of slots of `argv` is the length of the list
  that models the array;
* the file system, the dynamic loader and the results of `read`/`write` are
  explicit parameters (`World`); heap allocation (`strdup`, `asprintf`) is
  taken to succeed;
* what the functions of the loaded module do when called is a parameter
  (`ModuleCode`), and its data cells are a memory indexed by address (`Cells`).
-/

namespace TLMu

/-! ## Data model -/

/-- A C pointer to code or data: `none` is `NULL`. -/
abbrev Ptr := Option Nat

/-- A shared object as `dlsym` sees it: exported names with their addresses. -/
abbrev Module := List (String × Nat)

/-- The instance record `struct tlmu`. -/
structure tlmu where
  dl_handle : Option Module
  name : String
  main : Ptr
  tlm_set_log_filename : Ptr
  tlm_image_load_base : Ptr
  tlm_image_load_size : Ptr
  tlm_map_ram : Ptr
  tlm_opaque : Ptr
  tlm_notify_event : Ptr
  tlm_sync : Ptr
  tlm_sync_period_ns : Ptr
  tlm_boot_state : Ptr
  tlm_bus_access_cb : Ptr
  tlm_bus_access_dbg_cb : Ptr
  tlm_bus_access : Ptr
  tlm_bus_access_dbg : Ptr
  tlm_get_dmi_ptr_cb : Ptr
  tlm_get_dmi_ptr : Ptr
  qemu_system_shutdown_request : Ptr
  argv : List (Option String)
deriving DecidableEq, Repr

/-- How a call that may hit `assert(0)` or leave the array ends. -/
inductive Outcome where
  /-- The call returned; the record is as given. -/
  | ok (t : tlmu)
  /-- The call stopped in `assert(0)`; the record is as it was at that point. -/
  | assertFail (t : tlmu)
  /-- The scan for the sentinel read past the last slot of `argv`. -/
  | outOfBounds
deriving DecidableEq, Repr

/-- Sequencing of calls: a later call runs only when the earlier one returned. -/
def Outcome.andThen (o : Outcome) (f : tlmu → Outcome) : Outcome :=
  match o with
  | .ok t => f t
  | .assertFail t => .assertFail t
  | .outOfBounds => .outOfBounds

/-! ## Argument vector -/

/-- The loop `while (argv[i]) i++` started at `i = 0`: the index of the first
`NULL` slot, or `none` when no slot of the array is `NULL`. -/
def scanNull : List (Option String) → Option Nat
  | [] => none
  | none :: _ => some 0
  | some _ :: rest => (scanNull rest).map (· + 1)

/-- The record after `memset(t, 0, sizeof *t); t->name = name;` with `cap`
slots in `argv`. -/
def zeroed (cap : Nat) (name : String) : tlmu :=
  { dl_handle := none, name := name, main := none, tlm_set_log_filename := none,
    tlm_image_load_base := none, tlm_image_load_size := none, tlm_map_ram := none,
    tlm_opaque := none, tlm_notify_event := none, tlm_sync := none,
    tlm_sync_period_ns := none, tlm_boot_state := none, tlm_bus_access_cb := none,
    tlm_bus_access_dbg_cb := none, tlm_bus_access := none, tlm_bus_access_dbg := none,
    tlm_get_dmi_ptr_cb := none, tlm_get_dmi_ptr := none,
    qemu_system_shutdown_request := none, argv := List.replicate cap none }

/-- `tlmu_append_arg`: find the sentinel, stop in `assert(0)` when
`i + 1 >= sizeof argv / sizeof argv[0]`, else store `arg` and a new sentinel. -/
def tlmu_append_arg (t : tlmu) (arg : Option String) : Outcome :=
  match scanNull t.argv with
  | none => .outOfBounds
  | some i =>
    if i + 1 ≥ t.argv.length then .assertFail t
    else .ok { t with argv := (t.argv.set i arg).set (i + 1) none }

/-- `tlmu_init` on a record whose `argv` has `cap` slots. -/
def tlmu_init (cap : Nat) (name : String) : Outcome :=
  (tlmu_append_arg (zeroed cap name) (some "TLMu")).andThen fun t =>
  (tlmu_append_arg t (some "-qmp")).andThen fun t =>
  tlmu_append_arg t (some "null")

/-- A caller that appends the strings of a list one after the other. -/
def appendAll (t : tlmu) : List String → Outcome
  | [] => .ok t
  | a :: rest => (tlmu_append_arg t (some a)).andThen fun t1 => appendAll t1 rest

/-- The call `t->main(0, 1, 1, argc, t->argv, NULL)` as the callee sees it. -/
structure MainCall where
  fn : Nat
  arg0 : Int
  arg1 : Int
  arg2 : Int
  argc : Nat
  argv : List (Option String)
  envp : Ptr
deriving DecidableEq, Repr

/-- What `tlmu_run` does. -/
inductive RunResult where
  /-- The entry point stored in `main` was called. -/
  | called (c : MainCall)
  /-- The field `main` is `NULL`: the call goes through a null pointer. -/
  | nullCall
  /-- The count of the arguments read past the last slot of `argv`. -/
  | outOfBounds
deriving DecidableEq, Repr

/-- `tlmu_run`: count the arguments up to the sentinel, then call `t->main`. -/
def tlmu_run (t : tlmu) : RunResult :=
  match scanNull t.argv with
  | none => .outOfBounds
  | some argc =>
    match t.main with
    | none => .nullCall
    | some f => .called { fn := f, arg0 := 0, arg1 := 1, arg2 := 1, argc := argc,
                          argv := t.argv, envp := none }

/-! ## Environment: file system, dynamic loader, `read` and `write` -/

/-- The values of `errno` that `copylib` tells apart after a failed `read`. -/
inductive Errno where
  | EINTR
  | EAGAIN
  | EOTHER
deriving DecidableEq, Repr

/-- What the kernel does with one `read(s, buf, sizeof buf)`. -/
inductive ReadOutcome where
  /-- All the bytes asked for, or all that are left before the end of the file. -/
  | full
  /-- A short read: at most `k + 1` bytes. -/
  | short (k : Nat)
  /-- The call returns `-1` and sets `errno`. -/
  | error (e : Errno)
deriving DecidableEq, Repr

/-- What the kernel does with one `write(d, buf, r)`. -/
inductive WriteOutcome where
  /-- All `r` bytes are written. -/
  | full
  /-- A short write: at most `k + 1` bytes are written. -/
  | short (k : Nat)
  /-- The call returns `-1`. -/
  | error
deriving DecidableEq, Repr

/-- Contents of the regular files, by path; a byte is a natural number. -/
abbrev Files := String → Option (List Nat)

/-- Everything outside the process that `copylib` and `tlmu_load` depend on.
`mkdir(".tlmu")` is not modelled on its own: whether the private copy can be
opened for writing is `canWrite`. -/
structure World where
  /-- Regular files; `stat` succeeds on the paths that have one. -/
  files : Files
  /-- Whether `open(path, O_RDONLY)` is permitted. -/
  canRead : String → Bool
  /-- Whether `open(path, O_WRONLY | O_CREAT, mode)` succeeds. -/
  canWrite : String → Bool
  /-- The shared object `dlopen` makes of a file with this content, if any. -/
  loader : List Nat → Option Module
  /-- The shared object `dlopen` finds for a specifier that is not a path name. -/
  search : String → Option Module
  /-- The file that `dladdr` names for an address (`dli_fname`). -/
  dladdr : Nat → Option String
  /-- The outcome of the `n`-th call of `read`. -/
  reads : Nat → ReadOutcome
  /-- The outcome of the `n`-th call of `write`. -/
  writes : Nat → WriteOutcome

/-- The size of `buf` in `copylib`. -/
def BUFSZ : Nat := 4 * 1024

/-- The file map with the content of one path replaced. -/
def Files.put (fs : Files) (p : String) (c : List Nat) : Files :=
  fun x => if x = p then some c else fs x

/-- The content of a file after `data` is written at offset `pos`. -/
def writeAt (c : List Nat) (pos : Nat) (data : List Nat) : List Nat :=
  c.take pos ++ data ++ c.drop (pos + data.length)

/-- The state of the copy loop: the files, the offsets of the descriptors `s`
and `d`, and how many `read` and `write` calls were made. -/
structure CopyState where
  files : Files
  spos : Nat
  dpos : Nat
  nread : Nat
  nwrite : Nat

/-- One `read(s, buf, sizeof buf)`: the value returned, `errno`, and the bytes
put at the start of `buf`. -/
def sysRead (w : World) (src : String) (st : CopyState) : Int × Errno × List Nat × CopyState :=
  let rest := ((st.files src).getD []).drop st.spos
  let st1 := { st with nread := st.nread + 1 }
  match w.reads st.nread with
  | .error e => (-1, e, [], st1)
  | .full =>
    let data := rest.take BUFSZ
    (data.length, .EOTHER, data, { st1 with spos := st.spos + data.length })
  | .short k =>
    let data := rest.take (min BUFSZ (k + 1))
    (data.length, .EOTHER, data, { st1 with spos := st.spos + data.length })

/-- One `write(d, buf, r)`: the value returned and the state after it. The bytes
written are taken from the start of `buf`. -/
def sysWrite (w : World) (dst : String) (buf : List Nat) (r : Nat) (st : CopyState) :
    Int × CopyState :=
  let st1 := { st with nwrite := st.nwrite + 1 }
  match w.writes st.nwrite with
  | .error => (-1, st1)
  | .full =>
    let data := buf.take r
    (data.length, { st1 with
      files := st.files.put dst (writeAt ((st.files dst).getD []) st.dpos data),
      dpos := st.dpos + data.length })
  | .short k =>
    let data := buf.take (min r (k + 1))
    (data.length, { st1 with
      files := st.files.put dst (writeAt ((st.files dst).getD []) st.dpos data),
      dpos := st.dpos + data.length })

/-- The inner loop `do { wr = write(d, buf, r); if (wr <= 0) goto err;
written += wr; } while (written < r);`. The flag is `false` on `goto err`;
`none` when the fuel is used up. -/
def writeLoop (w : World) (dst : String) (buf : List Nat) (r : Int) :
    Nat → Int → CopyState → Option (Bool × CopyState)
  | 0, _, _ => none
  | fuel + 1, written, st =>
    let (wr, st1) := sysWrite w dst buf r.toNat st
    if wr ≤ 0 then some (false, st1)
    else if written + wr < r then writeLoop w dst buf r fuel (written + wr) st1
    else some (true, st1)

/-- The exit that `copylib` takes. The C function returns `void`: its caller
cannot tell the exits apart. -/
inductive CopyExit where
  /-- The copy loop ended on `read` returning `0`. -/
  | copied
  /-- No source file: `stat` failed and `dlopen`, `dlsym` or `dladdr` failed. -/
  | noSource
  /-- `open(ld_path, O_RDONLY)` failed. -/
  | srcOpenFailed
  /-- `open(newpath, O_WRONLY | O_CREAT, ...)` failed. -/
  | dstOpenFailed
  /-- A `write` returned `0` or less. -/
  | writeFailed
deriving DecidableEq, Repr

/-- The outer loop `do { r = read(...); if (r < 0 && (errno == EINTR ||
errno == EAGAIN)) continue; if (r > 0) { ... } } while (r);`. A `continue` in
a `do`/`while` goes to the test `while (r)`. `none` when the fuel is used up. -/
def copyLoop (w : World) (src dst : String) : Nat → CopyState → Option (CopyExit × CopyState)
  | 0, _ => none
  | fuel + 1, st =>
    let (r, errno, buf, st1) := sysRead w src st
    if r < 0 ∧ (errno = .EINTR ∨ errno = .EAGAIN) then
      if r ≠ 0 then copyLoop w src dst fuel st1 else some (.copied, st1)
    else if r > 0 then
      match writeLoop w dst buf r fuel 0 st1 with
      | none => none
      | some (false, st2) => some (.writeFailed, st2)
      | some (true, st2) =>
        if r ≠ 0 then copyLoop w src dst fuel st2 else some (.copied, st2)
    else
      if r ≠ 0 then copyLoop w src dst fuel st1 else some (.copied, st1)

/-- `dlopen(spec, RTLD_LOCAL | RTLD_DEEPBIND | RTLD_NOW)`: a specifier with a
slash is a path name and the file there is loaded; any other specifier is
searched for by the loader. -/
def dlopen (w : World) (files : Files) (spec : String) : Option Module :=
  if '/' ∈ spec.data then (files spec).bind w.loader else w.search spec

/-- The first part of `copylib` (lines 72 to 95): the path `ld_path` of the file
to copy. -/
def resolveSource (w : World) (path : String) : Option String :=
  if (w.files path).isSome then some path
  else
    match dlopen w w.files path with
    | none => none
    | some handle =>
      match handle.lookup "vl_main" with
      | none => none
      | some addr => w.dladdr addr

/-- `copylib(path, newpath)`: the exit taken and the files afterwards; `none`
when the copy loop does not end within the fuel. The destination is opened
without `O_EXCL` and without `O_TRUNC`: a file already there is kept and
written from offset `0`. -/
def copylib (w : World) (fuel : Nat) (path newpath : String) : Option (CopyExit × Files) :=
  match resolveSource w path with
  | none => some (.noSource, w.files)
  | some ld_path =>
    if (w.files ld_path).isSome ∧ w.canRead ld_path = true then
      if w.canWrite newpath = true then
        let files1 := w.files.put newpath ((w.files newpath).getD [])
        match copyLoop w ld_path newpath fuel
            { files := files1, spos := 0, dpos := 0, nread := 0, nwrite := 0 } with
        | none => none
        | some (e, st) => some (e, st.files)
      else some (.dstOpenFailed, w.files)
    else some (.srcOpenFailed, w.files)

/-! ## Symbol binder -/

/-- The function `basename` of `libgen.h` (the POSIX one, which `tlmu.c` gets
by including `libgen.h`), on the characters of a path: the last component,
trailing slashes dropped; `"."` for the empty path and `"/"` for a path of
slashes only. -/
def basenameChars (p : List Char) : List Char :=
  if p = [] then ['.']
  else
    let q := (p.reverse.dropWhile (· == '/')).reverse
    if q = [] then ['/']
    else (q.reverse.takeWhile (· != '/')).reverse

/-- The function `basename` on strings. -/
def basename (s : String) : String := String.mk (basenameChars s.data)

/-- What `tlmu_load` does to its environment, in order. -/
inductive Event where
  /-- A call `dlsym(handle, sym)`. -/
  | dlsym (sym : String)
  /-- The line `dlopen(<lib>):<diagnostic>` on `stderr`. -/
  | errDlopen (lib : String)
  /-- The line `Error dlsym(<handle>, "<sym>"):<diagnostic>` on `stderr`. -/
  | errDlsym (sym : String)
  /-- The call `dlclose(q->dl_handle)`. -/
  | dlclose
  /-- The call `q->tlm_set_log_filename(f)` of the function at address `fn`. -/
  | set_log_filename (fn : Nat) (f : String)
  /-- A call through a `NULL` function pointer. -/
  | nullCall
deriving DecidableEq, Repr

/-- The names that `tlmu_load` passes to `dlsym_wrap`, in the order of the
calls (lines 177 to 193). -/
def bindOrder : List String :=
  ["vl_main", "qemu_set_log_filename", "tlm_image_load_base", "tlm_image_load_size",
   "tlm_map_ram", "tlm_opaque", "tlm_notify_event", "tlm_sync", "tlm_sync_period_ns",
   "tlm_boot_state", "tlm_bus_access_cb", "tlm_bus_access_dbg_cb", "tlm_bus_access",
   "tlm_bus_access_dbg", "tlm_get_dmi_ptr_cb", "tlm_get_dmi_ptr",
   "qemu_system_shutdown_request"]

/-- What one call of `dlsym_wrap` adds to the log: the call of `dlsym`, and the
line on `stderr` when the symbol is missing. -/
def symEvents (h : Module) (sym : String) : List Event :=
  if h.lookup sym = none then [Event.dlsym sym, Event.errDlsym sym] else [Event.dlsym sym]

/-- `dlsym_wrap`: look the symbol up and print a line when it is missing. -/
def dlsym_wrap (handle : Module) (sym : String) (log : List Event) : Ptr × List Event :=
  let ret := handle.lookup sym
  let log1 := log ++ [Event.dlsym sym]
  if ret = none then (ret, log1 ++ [Event.errDlsym sym]) else (ret, log1)

/-- `tlmu_set_log_filename`: call the bound setter with `f`. -/
def tlmu_set_log_filename (q : tlmu) (f : String) (log : List Event) : List Event :=
  match q.tlm_set_log_filename with
  | some fn => log ++ [Event.set_log_filename fn f]
  | none => log ++ [Event.nullCall]

/-- Lines 177 to 193 of `tlmu_load`: the seventeen assignments
`q->field = dlsym_wrap(q->dl_handle, "name")`, in the order of the source. -/
def bindSymbols (h : Module) (q : tlmu) (log : List Event) : tlmu × List Event :=
  let r := dlsym_wrap h "vl_main" log
  let q := { q with main := r.1 }
  let r := dlsym_wrap h "qemu_set_log_filename" r.2
  let q := { q with tlm_set_log_filename := r.1 }
  let r := dlsym_wrap h "tlm_image_load_base" r.2
  let q := { q with tlm_image_load_base := r.1 }
  let r := dlsym_wrap h "tlm_image_load_size" r.2
  let q := { q with tlm_image_load_size := r.1 }
  let r := dlsym_wrap h "tlm_map_ram" r.2
  let q := { q with tlm_map_ram := r.1 }
  let r := dlsym_wrap h "tlm_opaque" r.2
  let q := { q with tlm_opaque := r.1 }
  let r := dlsym_wrap h "tlm_notify_event" r.2
  let q := { q with tlm_notify_event := r.1 }
  let r := dlsym_wrap h "tlm_sync" r.2
  let q := { q with tlm_sync := r.1 }
  let r := dlsym_wrap h "tlm_sync_period_ns" r.2
  let q := { q with tlm_sync_period_ns := r.1 }
  let r := dlsym_wrap h "tlm_boot_state" r.2
  let q := { q with tlm_boot_state := r.1 }
  let r := dlsym_wrap h "tlm_bus_access_cb" r.2
  let q := { q with tlm_bus_access_cb := r.1 }
  let r := dlsym_wrap h "tlm_bus_access_dbg_cb" r.2
  let q := { q with tlm_bus_access_dbg_cb := r.1 }
  let r := dlsym_wrap h "tlm_bus_access" r.2
  let q := { q with tlm_bus_access := r.1 }
  let r := dlsym_wrap h "tlm_bus_access_dbg" r.2
  let q := { q with tlm_bus_access_dbg := r.1 }
  let r := dlsym_wrap h "tlm_get_dmi_ptr_cb" r.2
  let q := { q with tlm_get_dmi_ptr_cb := r.1 }
  let r := dlsym_wrap h "tlm_get_dmi_ptr" r.2
  let q := { q with tlm_get_dmi_ptr := r.1 }
  let r := dlsym_wrap h "qemu_system_shutdown_request" r.2
  let q := { q with qemu_system_shutdown_request := r.1 }
  (q, r.2)

/-- The test of lines 194 to 210: some binding field is `NULL`. -/
def anyUnbound (q : tlmu) : Bool :=
  q.main.isNone
    || q.tlm_map_ram.isNone
    || q.tlm_set_log_filename.isNone
    || q.tlm_image_load_base.isNone
    || q.tlm_image_load_size.isNone
    || q.tlm_opaque.isNone
    || q.tlm_notify_event.isNone
    || q.tlm_sync.isNone
    || q.tlm_sync_period_ns.isNone
    || q.tlm_boot_state.isNone
    || q.tlm_bus_access_cb.isNone
    || q.tlm_bus_access_dbg_cb.isNone
    || q.tlm_bus_access.isNone
    || q.tlm_bus_access_dbg.isNone
    || q.tlm_get_dmi_ptr_cb.isNone
    || q.tlm_get_dmi_ptr.isNone
    || q.qemu_system_shutdown_request.isNone

/-- The path of the private copy: `asprintf(&libname, ".tlmu/%s-%s",
sobasename, q->name)`. -/
def libname (soname name : String) : String :=
  ".tlmu/" ++ basename soname ++ "-" ++ name

/-- The path of the log: `asprintf(&logname, ".tlmu/%s-%s.log", sobasename,
q->name)`. -/
def logname (soname name : String) : String :=
  ".tlmu/" ++ basename soname ++ "-" ++ name ++ ".log"

/-- What `tlmu_load` leaves behind: the value returned, the record, the files
and what it did to the environment. -/
structure LoadResult where
  ret : Int
  q : tlmu
  files : Files
  log : List Event

/-- `tlmu_load`; `none` when `copylib` does not return within the fuel. -/
def tlmu_load (w : World) (fuel : Nat) (q : tlmu) (soname : String) : Option LoadResult :=
  match copylib w fuel soname (libname soname q.name) with
  | none => none
  | some (_, files) =>
    match dlopen w files (libname soname q.name) with
    | none =>
      some { ret := 1, q := { q with dl_handle := none }, files := files,
             log := [Event.errDlopen (libname soname q.name)] }
    | some h =>
      let b := bindSymbols h { q with dl_handle := some h } []
      if anyUnbound b.1 = true then
        some { ret := 1, q := b.1, files := files, log := b.2 ++ [Event.dlclose] }
      else
        some { ret := 0, q := b.1, files := files,
               log := tlmu_set_log_filename b.1 (logname soname q.name) b.2 }

/-- The record after the seventeen assignments on module `m`: every field
holds what `dlsym` gives for its name. -/
def storedIn (m : Module) (q : tlmu) : tlmu :=
  { q with
    dl_handle := some m,
    main := m.lookup "vl_main",
    tlm_set_log_filename := m.lookup "qemu_set_log_filename",
    tlm_image_load_base := m.lookup "tlm_image_load_base",
    tlm_image_load_size := m.lookup "tlm_image_load_size",
    tlm_map_ram := m.lookup "tlm_map_ram",
    tlm_opaque := m.lookup "tlm_opaque",
    tlm_notify_event := m.lookup "tlm_notify_event",
    tlm_sync := m.lookup "tlm_sync",
    tlm_sync_period_ns := m.lookup "tlm_sync_period_ns",
    tlm_boot_state := m.lookup "tlm_boot_state",
    tlm_bus_access_cb := m.lookup "tlm_bus_access_cb",
    tlm_bus_access_dbg_cb := m.lookup "tlm_bus_access_dbg_cb",
    tlm_bus_access := m.lookup "tlm_bus_access",
    tlm_bus_access_dbg := m.lookup "tlm_bus_access_dbg",
    tlm_get_dmi_ptr_cb := m.lookup "tlm_get_dmi_ptr_cb",
    tlm_get_dmi_ptr := m.lookup "tlm_get_dmi_ptr",
    qemu_system_shutdown_request := m.lookup "qemu_system_shutdown_request" }

/-- The seventeen names of the symbol contract, as the specification lists
them. -/
def requiredNames : List String :=
  ["vl_main", "qemu_set_log_filename", "tlm_image_load_base", "tlm_image_load_size",
   "tlm_map_ram", "tlm_opaque", "tlm_notify_event", "tlm_sync", "tlm_sync_period_ns",
   "tlm_boot_state", "tlm_bus_access_cb", "tlm_bus_access_dbg_cb", "tlm_get_dmi_ptr_cb",
   "tlm_bus_access", "tlm_bus_access_dbg", "tlm_get_dmi_ptr",
   "qemu_system_shutdown_request"]

/-- The names passed to `dlsym`, read off a log. -/
def attempted (log : List Event) : List String :=
  log.filterMap fun e => match e with
    | Event.dlsym s => some s
    | _ => none

/-- The names reported as missing on `stderr`, read off a log. -/
def reported (log : List Event) : List String :=
  log.filterMap fun e => match e with
    | Event.errDlsym s => some s
    | _ => none

/-! ## Bus bridge and data cells -/

/-- A value held by a data cell of the module. -/
inductive Value where
  /-- A pointer to data or code (`void *`, a callback). -/
  | ptr (p : Ptr)
  /-- A `uint64_t`. -/
  | u64 (n : Nat)
  /-- An `int`. -/
  | int (i : Int)
deriving DecidableEq, Repr

/-- The data memory of the loaded module: what each address holds. -/
abbrev Cells := Nat → Option Value

/-- The memory after `*a = v`. -/
def Cells.store (m : Cells) (a : Nat) (v : Value) : Cells :=
  fun x => if x = a then some v else m x

/-- `tlmu_set_opaque`: `*q->tlm_opaque = o`; `none` when the field is `NULL`. -/
def tlmu_set_opaque (q : tlmu) (o : Ptr) (m : Cells) : Option (tlmu × Cells) :=
  match q.tlm_opaque with
  | none => none
  | some a => some (q, m.store a (Value.ptr o))

/-- `tlmu_set_bus_access_cb`: `*q->tlm_bus_access_cb = access`. -/
def tlmu_set_bus_access_cb (q : tlmu) (access : Ptr) (m : Cells) : Option (tlmu × Cells) :=
  match q.tlm_bus_access_cb with
  | none => none
  | some a => some (q, m.store a (Value.ptr access))

/-- `tlmu_set_bus_access_dbg_cb`: `*q->tlm_bus_access_dbg_cb = access`. -/
def tlmu_set_bus_access_dbg_cb (q : tlmu) (access : Ptr) (m : Cells) : Option (tlmu × Cells) :=
  match q.tlm_bus_access_dbg_cb with
  | none => none
  | some a => some (q, m.store a (Value.ptr access))

/-- `tlmu_set_bus_get_dmi_ptr_cb`: `*q->tlm_get_dmi_ptr_cb = dmi`. -/
def tlmu_set_bus_get_dmi_ptr_cb (q : tlmu) (dmi : Ptr) (m : Cells) : Option (tlmu × Cells) :=
  match q.tlm_get_dmi_ptr_cb with
  | none => none
  | some a => some (q, m.store a (Value.ptr dmi))

/-- `tlmu_set_sync_period_ns`: `*q->tlm_sync_period_ns = period_ns`. -/
def tlmu_set_sync_period_ns (q : tlmu) (period_ns : Nat) (m : Cells) : Option (tlmu × Cells) :=
  match q.tlm_sync_period_ns with
  | none => none
  | some a => some (q, m.store a (Value.u64 period_ns))

/-- `tlmu_set_boot_state`: `*q->tlm_boot_state = v`. -/
def tlmu_set_boot_state (q : tlmu) (v : Int) (m : Cells) : Option (tlmu × Cells) :=
  match q.tlm_boot_state with
  | none => none
  | some a => some (q, m.store a (Value.int v))

/-- `tlmu_set_sync_cb`: `*q->tlm_sync = cb`. -/
def tlmu_set_sync_cb (q : tlmu) (cb : Ptr) (m : Cells) : Option (tlmu × Cells) :=
  match q.tlm_sync with
  | none => none
  | some a => some (q, m.store a (Value.ptr cb))

/-- `tlmu_set_image_load_params`: `*q->tlm_image_load_base = base;` and then
`*q->tlm_image_load_size = size;`. -/
def tlmu_set_image_load_params (q : tlmu) (base size : Nat) (m : Cells) :
    Option (tlmu × Cells) :=
  match q.tlm_image_load_base with
  | none => none
  | some b =>
    match q.tlm_image_load_size with
    | none => none
    | some s => some (q, (m.store b (Value.u64 base)).store s (Value.u64 size))

/-- A call from the bridge into a function of the loaded module, with the
address called and the arguments. A buffer `void *data` is given by its
content. -/
inductive BridgeCall where
  | bus_access (fn : Nat) (rw : Int) (addr : Nat) (data : List Nat) (len : Int)
  | bus_access_dbg (fn : Nat) (rw : Int) (addr : Nat) (data : List Nat) (len : Int)
  | map_ram (fn : Nat) (name : String) (addr size : Nat) (rw : Int) (nosync : Int)
  | shutdown_request (fn : Nat)
deriving DecidableEq, Repr

/-- What a function of the module hands back: the value returned and the
content of the buffer after the call. -/
structure Reply where
  status : Int
  data : List Nat
deriving DecidableEq, Repr

/-- The code of the loaded module: what a call does, given the state of the
module, and the state afterwards. -/
abbrev ModuleCode (σ : Type) := BridgeCall → σ → Reply × σ

/-- What a bridge function did: the value it returns to its caller, the buffer
and the state of the module afterwards, and the calls it made, in order. -/
structure BridgeResult (σ : Type) where
  ret : Int
  data : List Nat
  state : σ
  calls : List BridgeCall

/-- `tlmu_bus_access`: `return q->tlm_bus_access(rw, addr, data, len);`. `none`
when the field is `NULL`. -/
def tlmu_bus_access {σ : Type} (code : ModuleCode σ) (q : tlmu) (rw : Int) (addr : Nat)
    (data : List Nat) (len : Int) (s : σ) : Option (BridgeResult σ) :=
  match q.tlm_bus_access with
  | none => none
  | some f =>
    let r := code (BridgeCall.bus_access f rw addr data len) s
    some { ret := r.1.status, data := r.1.data, state := r.2,
           calls := [BridgeCall.bus_access f rw addr data len] }

/-- `tlmu_bus_access_dbg`: `q->tlm_bus_access_dbg(rw, addr, data, len);`. The
function is `void`: the field `ret` is `0`. -/
def tlmu_bus_access_dbg {σ : Type} (code : ModuleCode σ) (q : tlmu) (rw : Int) (addr : Nat)
    (data : List Nat) (len : Int) (s : σ) : Option (BridgeResult σ) :=
  match q.tlm_bus_access_dbg with
  | none => none
  | some f =>
    let r := code (BridgeCall.bus_access_dbg f rw addr data len) s
    some { ret := 0, data := r.1.data, state := r.2,
           calls := [BridgeCall.bus_access_dbg f rw addr data len] }

/-- `tlmu_map_ram`: `q->tlm_map_ram(name, addr, size, rw, 0);`. -/
def tlmu_map_ram {σ : Type} (code : ModuleCode σ) (q : tlmu) (name : String) (addr size : Nat)
    (rw : Int) (s : σ) : Option (σ × List BridgeCall) :=
  match q.tlm_map_ram with
  | none => none
  | some f =>
    some ((code (BridgeCall.map_ram f name addr size rw 0) s).2,
          [BridgeCall.map_ram f name addr size rw 0])

/-- `tlmu_map_ram_nosync`: `q->tlm_map_ram(name, addr, size, rw, 1);`. -/
def tlmu_map_ram_nosync {σ : Type} (code : ModuleCode σ) (q : tlmu) (name : String)
    (addr size : Nat) (rw : Int) (s : σ) : Option (σ × List BridgeCall) :=
  match q.tlm_map_ram with
  | none => none
  | some f =>
    some ((code (BridgeCall.map_ram f name addr size rw 1) s).2,
          [BridgeCall.map_ram f name addr size rw 1])

/-- `tlmu_exit`: `(*(t->qemu_system_shutdown_request))();`. The record is
handed back as the call leaves it; `none` when the field is `NULL`. -/
def tlmu_exit {σ : Type} (code : ModuleCode σ) (t : tlmu) (s : σ) :
    Option (tlmu × σ × List BridgeCall) :=
  match t.qemu_system_shutdown_request with
  | none => none
  | some f => some (t, (code (BridgeCall.shutdown_request f) s).2, [BridgeCall.shutdown_request f])

/-- A caller that calls `tlmu_exit` `n` times in a row. -/
def exitTimes {σ : Type} (code : ModuleCode σ) : Nat → tlmu → σ → Option (tlmu × σ × List BridgeCall)
  | 0, t, s => some (t, s, [])
  | n + 1, t, s =>
    match tlmu_exit code t s with
    | none => none
    | some (t1, s1, c1) =>
      match exitTimes code n t1 s1 with
      | none => none
      | some (t2, s2, c2) => some (t2, s2, c1 ++ c2)

/-- The calls of the bound log-filename setter, read off a log: the address
called and the path passed. -/
def setLogCalls (log : List Event) : List (Nat × String) :=
  log.filterMap fun e => match e with
    | Event.set_log_filename fn f => some (fn, f)
    | _ => none

/-! ## Interrupt lines of the Zynq board (`tlm_zynq.c`) -/

/-- One call `intc_fdt_class->get_irq(intc, &zynq_irq[i], cells, 3, 1, &errp)`:
the slot `i` of `zynq_irq` and the three cells at the time of the call. -/
structure IrqRequest where
  slot : Nat
  cells : Nat × Nat × Nat
  ncells : Nat
  max : Nat
deriving DecidableEq, Repr

/-- The loop `for (i = 0; i < 16; i++) { get_irq(...); if (++cells[1] == 37)
cells[1] = 52; }` of `zynq_get_irqs`, from index `i` with `cells[1] = c1`;
`cells[1]` is a `uint32_t`. -/
def zynq_irq_loop : Nat → Nat → Nat → List IrqRequest
  | 0, _, _ => []
  | fuel + 1, i, c1 =>
    if i < 16 then
      let inc := (c1 + 1) % 2 ^ 32
      { slot := i, cells := (0, c1, 0), ncells := 3, max := 1 }
        :: zynq_irq_loop fuel (i + 1) (if inc = 37 then 52 else inc)
    else []

/-- `zynq_get_irqs`: the requests made for the interrupt lines; `none` on the
path `fail` (no GIC node, or no interrupt controller class), which ends in
`hw_error`. -/
def zynq_get_irqs (gicFound hasClass : Bool) (fuel : Nat) : Option (List IrqRequest) :=
  if gicFound = false then none
  else if hasClass = false then none
  else some (zynq_irq_loop fuel 0 29)

/-- The memory `mem1` differs from `mem` by the listed writes only: each listed
cell holds its listed value and every other cell is as in `mem`. -/
def WritesOnly (mem mem1 : Cells) (ws : List (Nat × Value)) : Prop :=
  (∀ p ∈ ws, mem1 p.1 = some p.2) ∧ ∀ x, (∀ p ∈ ws, x ≠ p.1) → mem1 x = mem x

/-- The nine data cells of a record, in the order: opaque pointer, the three
inbound callbacks, sync callback, sync period, boot state, image base and
size. -/
def dataCells (q : tlmu) : List Ptr :=
  [q.tlm_opaque, q.tlm_bus_access_cb, q.tlm_bus_access_dbg_cb, q.tlm_get_dmi_ptr_cb,
   q.tlm_sync, q.tlm_sync_period_ns, q.tlm_boot_state, q.tlm_image_load_base,
   q.tlm_image_load_size]

/-! ## Boot CPU of the Zynq board (`tlm_zynq.c`) -/

/-- The value an `int` takes for the arithmetic result `x`: 32 bits, two's
complement, wrapping. -/
def wrapInt (x : Int) : Int := (x + 2147483648) % 4294967296 - 2147483648

/-- The initial value `int boot_cpu = qemu_opt_get_number(..., "cpu", 0)`: the
`uint64_t` option value converted to `int`. -/
def bootCpuOfOption (v : Nat) : Int := wrapInt (v % 18446744073709551616)

/-- The loop `for (cs = first_cpu; cs && boot_cpu; cs = CPU_NEXT(cs))
boot_cpu--;` of `tlm_zynq_init`. The CPU list is given from `cs` on (the empty
list is `cs == NULL`); the result is the list from the final `cs` on. -/
def bootCpuLoop {α : Type} : List α → Int → List α
  | [], _ => []
  | c :: rest, boot_cpu =>
    if boot_cpu ≠ 0 then bootCpuLoop rest (wrapInt (boot_cpu - 1)) else c :: rest

/-- How the selection of the boot CPU in `tlm_zynq_init` ends. -/
inductive BootCpu (α : Type) where
  /-- The statement `tlm_zynq_binfo.primary_cpu = ARM_CPU(cs)` is reached with
  this CPU. -/
  | primary (cpu : α)
  /-- The branch `if (!cs)`: `error_report("Specified boot CPU is out of
  range!")` and `exit(1)`. -/
  | outOfRange
deriving DecidableEq, Repr

/-- Lines 235 to 242 of `tlm_zynq_init`: the loop, then the test `if (!cs)`. -/
def selectBootCpu {α : Type} (cpus : List α) (boot_cpu : Int) : BootCpu α :=
  match bootCpuLoop cpus boot_cpu with
  | [] => BootCpu.outOfRange
  | cs :: _ => BootCpu.primary cs

/-! ## Test fixtures -/

/-- A conforming module: every required name, at addresses 1 to 17. -/
def stubModule : Module :=
  [("vl_main", 1), ("qemu_set_log_filename", 2), ("tlm_image_load_base", 3),
   ("tlm_image_load_size", 4), ("tlm_map_ram", 5), ("tlm_opaque", 6),
   ("tlm_notify_event", 7), ("tlm_sync", 8), ("tlm_sync_period_ns", 9),
   ("tlm_boot_state", 10), ("tlm_bus_access_cb", 11), ("tlm_bus_access_dbg_cb", 12),
   ("tlm_bus_access", 13), ("tlm_bus_access_dbg", 14), ("tlm_get_dmi_ptr_cb", 15),
   ("tlm_get_dmi_ptr", 16), ("qemu_system_shutdown_request", 17)]

/-- A world with the given files in which every file can be opened, `read` and
`write` always succeed in full, and a file whose first byte is `127` loads as
`m`. -/
def stubWorld (fs : Files) (m : Module) : World :=
  { files := fs, canRead := fun _ => true, canWrite := fun _ => true,
    loader := fun c => if c.head? = some 127 then some m else none,
    search := fun _ => none, dladdr := fun _ => none,
    reads := fun _ => ReadOutcome.full, writes := fun _ => WriteOutcome.full }

/-- A record with `"TLMu"` in the first of `n + 1` slots of `argv`. -/
def oneArg (n : Nat) : tlmu :=
  { zeroed (n + 1) "cpu0" with argv := some "TLMu" :: List.replicate n none }

/-- The conforming module with one name removed. -/
def moduleWithout (sym : String) : Module :=
  stubModule.filter fun p => p.1 != sym

/-- The files of the fixtures: a module `lib/x.so` of one byte. -/
def stubFiles : Files := fun x => if x = "lib/x.so" then some [127] else none

/-- The files of the fixtures after `lib/x.so` was copied for instance `cpu0`. -/
def stubCopied : Files := (stubFiles.put ".tlmu/x.so-cpu0" []).put ".tlmu/x.so-cpu0" [127]

/-- The record that `tlmu_init` leaves in four slots for instance `cpu0`. -/
def initCpu0 : tlmu :=
  { zeroed 4 "cpu0" with argv := [some "TLMu", some "-qmp", some "null", none] }

/-- The result of loading the conforming module without `sym` into `initCpu0`. -/
def failedLoad (sym : String) : LoadResult :=
  { ret := 1, q := storedIn (moduleWithout sym) initCpu0, files := stubCopied,
    log := bindOrder.flatMap (symEvents (moduleWithout sym)) ++ [Event.dlclose] }

/-- The file system that holds the listed files and no other. -/
def filesOf (l : List (String × List Nat)) : Files := fun x => l.lookup x

/-- The fixture world with the source `lib/x.so` and a file already at the
private copy path of instance `cpu0`. -/
def staleWorld (srcBytes staleBytes : List Nat) : World :=
  stubWorld (filesOf [("lib/x.so", srcBytes), (".tlmu/x.so-cpu0", staleBytes)]) stubModule

/-- The fixture world in which the source is missing and a loadable file is
already at the private copy path of instance `cpu0`. -/
def orphanWorld : World :=
  stubWorld (filesOf [(".tlmu/x.so-cpu0", [127])]) stubModule

/-- The record after `tlmu_init` and two appends in six slots. -/
def sessionCpu0 : tlmu :=
  { zeroed 6 "cpu0" with
    argv := [some "TLMu", some "-qmp", some "null", some "-M", some "tlm", none] }

/-- A loopback module for the bus: its state is a memory of bytes; a call of
`tlm_bus_access` with `rw` non-zero stores the first `len` bytes of the buffer
at `addr`, and with `rw` zero fills the buffer with the `len` bytes at `addr`.
The status is `1`. -/
def loopback : ModuleCode (Nat → Nat) := fun c mem =>
  match c with
  | BridgeCall.bus_access _ rw addr data len =>
    if rw ≠ 0 then
      ({ status := 1, data := data },
        fun x => if addr ≤ x ∧ x < addr + (data.take len.toNat).length
          then (data.take len.toNat).getD (x - addr) 0 else mem x)
    else
      ({ status := 1, data := (List.range len.toNat).map fun i => mem (addr + i) }, mem)
  | BridgeCall.bus_access_dbg _ rw addr data len =>
    if rw ≠ 0 then
      ({ status := 0, data := data },
        fun x => if addr ≤ x ∧ x < addr + (data.take len.toNat).length
          then (data.take len.toNat).getD (x - addr) 0 else mem x)
    else
      ({ status := 0, data := (List.range len.toNat).map fun i => mem (addr + i) }, mem)
  | _ => ({ status := 0, data := [] }, mem)

/-- A module code that does nothing and keeps count of the calls. -/
def countingCode : ModuleCode Nat := fun _ n => ({ status := 0, data := [] }, n + 1)

/-- The record after the stub module was loaded into `initCpu0`. -/
def loadedCpu0 : tlmu := storedIn stubModule initCpu0

/-- The result of loading the stub module into `initCpu0`. -/
def stubLoad : LoadResult :=
  { ret := 0, q := loadedCpu0, files := stubCopied,
    log := bindOrder.flatMap (symEvents stubModule)
      ++ [Event.set_log_filename 2 ".tlmu/x.so-cpu0.log"] }

/-- A world in which every `read` fails with an error other than `EINTR` and
`EAGAIN`. -/
def readErrorWorld : World :=
  { stubWorld stubFiles stubModule with reads := fun _ => ReadOutcome.error Errno.EOTHER }

/-- A world in which the first `write` takes one byte only and every later one
succeeds in full; the source holds three bytes. -/
def shortWriteWorld : World :=
  { stubWorld (filesOf [("lib/x.so", [1, 2, 3])]) stubModule with
    writes := fun n => if n = 0 then WriteOutcome.short 0 else WriteOutcome.full }

/-- Memory in which no cell has been written. -/
def noCells : Cells := fun _ => none

/-! ## Properties of the argument vector -/

theorem scanNull_strings (strs : List String) (rest : List (Option String)) :
    scanNull (strs.map some ++ none :: rest) = some strs.length := by
  induction strs with
  | nil => rfl
  | cons s strs ih => simp [scanNull, ih]

theorem scanNull_of_index (argv : List (Option String)) (c : Nat)
    (hpre : ∀ i, i < c → ∃ s, argv[i]? = some (some s))
    (hnull : argv[c]? = some none) : scanNull argv = some c := by
  induction argv generalizing c with
  | nil => simp at hnull
  | cons x xs ih =>
    cases c with
    | zero =>
      simp at hnull
      subst hnull
      rfl
    | succ c =>
      obtain ⟨s, hs⟩ := hpre 0 (Nat.succ_pos c)
      simp at hs
      subst hs
      have h1 : scanNull xs = some c := by
        apply ih
        · intro i hi
          have := hpre (i + 1) (Nat.succ_lt_succ hi)
          simpa using this
        · simpa using hnull
      simp [scanNull, h1]

theorem set_strings (strs : List String) (x : Option String) (rest : List (Option String)) :
    ((strs.map some ++ none :: none :: rest).set strs.length x).set (strs.length + 1) none
      = strs.map some ++ x :: none :: rest := by
  induction strs with
  | nil => rfl
  | cons s strs ih => simp

theorem append_arg_strings (t : tlmu) (strs : List String) (a : String) (n : Nat)
    (h : t.argv = strs.map some ++ List.replicate (n + 2) none) :
    tlmu_append_arg t (some a)
      = Outcome.ok { t with argv := (strs ++ [a]).map some ++ List.replicate (n + 1) none } := by
  have hs : scanNull t.argv = some strs.length := by
    rw [h, List.replicate_succ]
    exact scanNull_strings strs _
  have hlen : ¬ (strs.length + 1 ≥ t.argv.length) := by
    rw [h]
    simp
  unfold tlmu_append_arg
  rw [hs]
  simp only [hlen, if_false]
  congr 2
  rw [h, List.replicate_succ, List.replicate_succ, set_strings]
  simp

theorem appendAll_strings (args : List String) :
    ∀ (t : tlmu) (strs : List String) (n : Nat),
      t.argv = strs.map some ++ List.replicate (args.length + n + 1) none →
      appendAll t args
        = Outcome.ok { t with argv := (strs ++ args).map some ++ List.replicate (n + 1) none } := by
  induction args with
  | nil =>
    intro t strs n h
    simp only [appendAll, List.append_nil]
    congr 1
    cases t
    simp at h
    simp [h]
  | cons a args ih =>
    intro t strs n h
    have h1 : t.argv = strs.map some ++ List.replicate ((args.length + n) + 2) none := by
      rw [h]
      congr 2
      simp only [List.length_cons]
      omega
    rw [appendAll, append_arg_strings t strs a (args.length + n) h1]
    simp only [Outcome.andThen]
    rw [ih _ (strs ++ [a]) n (by simp)]
    simp

theorem init_strings (cap : Nat) (name : String) (n : Nat) (hcap : cap = n + 4) :
    tlmu_init cap name
      = Outcome.ok { zeroed cap name with
          argv := ["TLMu", "-qmp", "null"].map some ++ List.replicate (n + 1) none } := by
  subst hcap
  unfold tlmu_init
  rw [append_arg_strings (zeroed (n + 4) name) [] "TLMu" (n + 2) (by simp [zeroed])]
  simp only [Outcome.andThen]
  rw [append_arg_strings _ ["TLMu"] "-qmp" (n + 1) (by simp)]
  simp only [Outcome.andThen]
  rw [append_arg_strings _ ["TLMu", "-qmp"] "null" n (by simp)]
  simp

/-! ## Properties of `dlsym_wrap` and `tlmu_load` -/

theorem dlsym_wrap_fst (h : Module) (sym : String) (log : List Event) :
    (dlsym_wrap h sym log).1 = h.lookup sym := by
  simp only [dlsym_wrap]
  split <;> rfl

theorem dlsym_wrap_snd (h : Module) (sym : String) (log : List Event) :
    (dlsym_wrap h sym log).2 = log ++ symEvents h sym := by
  simp only [dlsym_wrap, symEvents]
  split <;> simp

theorem bindSymbols_fst (h : Module) (q : tlmu) (log : List Event) :
    (bindSymbols h q log).1 =
      { q with
        dl_handle := q.dl_handle,
        main := h.lookup "vl_main",
        tlm_set_log_filename := h.lookup "qemu_set_log_filename",
        tlm_image_load_base := h.lookup "tlm_image_load_base",
        tlm_image_load_size := h.lookup "tlm_image_load_size",
        tlm_map_ram := h.lookup "tlm_map_ram",
        tlm_opaque := h.lookup "tlm_opaque",
        tlm_notify_event := h.lookup "tlm_notify_event",
        tlm_sync := h.lookup "tlm_sync",
        tlm_sync_period_ns := h.lookup "tlm_sync_period_ns",
        tlm_boot_state := h.lookup "tlm_boot_state",
        tlm_bus_access_cb := h.lookup "tlm_bus_access_cb",
        tlm_bus_access_dbg_cb := h.lookup "tlm_bus_access_dbg_cb",
        tlm_bus_access := h.lookup "tlm_bus_access",
        tlm_bus_access_dbg := h.lookup "tlm_bus_access_dbg",
        tlm_get_dmi_ptr_cb := h.lookup "tlm_get_dmi_ptr_cb",
        tlm_get_dmi_ptr := h.lookup "tlm_get_dmi_ptr",
        qemu_system_shutdown_request := h.lookup "qemu_system_shutdown_request" } := by
  simp only [bindSymbols, dlsym_wrap_fst]

theorem bindSymbols_snd (h : Module) (q : tlmu) (log : List Event) :
    (bindSymbols h q log).2 = log ++ bindOrder.flatMap (symEvents h) := by
  simp only [bindSymbols, dlsym_wrap_snd, bindOrder, List.flatMap_cons, List.flatMap_nil,
    List.append_assoc, List.append_nil]

theorem tlmu_load_frame (w : World) (fuel : Nat) (q : tlmu) (soname : String)
    (res : LoadResult) (h : tlmu_load w fuel q soname = some res) :
    res.q.argv = q.argv ∧ res.q.name = q.name := by
  unfold tlmu_load at h
  split at h
  · exact absurd h (by simp)
  · split at h
    · simp only [Option.some.injEq] at h
      subst h
      exact ⟨rfl, rfl⟩
    · simp only at h
      split at h <;>
        (simp only [Option.some.injEq] at h
         subst h
         rw [bindSymbols_fst]
         exact ⟨rfl, rfl⟩)

/-! ## Instance controller: start-up arguments (C1, C2) -/

theorem tlmu_load_cases (w : World) (fuel : Nat) (q : tlmu) (soname : String)
    (res : LoadResult) (h : tlmu_load w fuel q soname = some res) :
    ∃ e files, copylib w fuel soname (libname soname q.name) = some (e, files)
      ∧ res.files = files
      ∧ ((dlopen w files (libname soname q.name) = none
            ∧ res.ret = 1 ∧ res.q = { q with dl_handle := none }
            ∧ res.log = [Event.errDlopen (libname soname q.name)])
          ∨ ∃ m, dlopen w files (libname soname q.name) = some m
            ∧ res.q = (bindSymbols m { q with dl_handle := some m } []).1
            ∧ ((anyUnbound res.q = true ∧ res.ret = 1
                  ∧ res.log = (bindSymbols m { q with dl_handle := some m } []).2
                      ++ [Event.dlclose])
                ∨ (anyUnbound res.q = false ∧ res.ret = 0
                  ∧ res.log = tlmu_set_log_filename res.q (logname soname q.name)
                      (bindSymbols m { q with dl_handle := some m } []).2))) := by
  unfold tlmu_load at h
  split at h
  · exact absurd h (by simp)
  · rename_i e files hc
    refine ⟨e, files, hc, ?_⟩
    split at h
    · rename_i hl
      simp only [Option.some.injEq] at h
      subst h
      exact ⟨rfl, Or.inl ⟨hl, rfl, rfl, rfl⟩⟩
    · rename_i m hl
      simp only at h
      split at h
      · rename_i hu
        simp only [Option.some.injEq] at h
        subst h
        exact ⟨rfl, Or.inr ⟨m, hl, rfl, Or.inl ⟨hu, rfl, rfl⟩⟩⟩
      · rename_i hu
        simp only [Option.some.injEq] at h
        subst h
        exact ⟨rfl, Or.inr ⟨m, hl, rfl, Or.inr ⟨by simpa using hu, rfl, rfl⟩⟩⟩

/-- C1: for `3 + k + 1 <= cap`, `tlmu_init` followed by `tlmu_append_arg` for
`a_1 .. a_k` returns with `argv` holding `"TLMu"`, `"-qmp"`, `"null"`,
`a_1 .. a_k`, the `NULL` sentinel and only `NULL` after it; and after any
`tlmu_load` of that record that returned `0`, `tlmu_run` calls the entry point
`vl_main` of the loaded module with `(0, 1, 1, 3 + k, argv, NULL)`. -/
theorem c1_run_argument_vector (cap : Nat) (name : String) (args : List String)
    (hcap : 3 + args.length + 1 ≤ cap) :
    ∃ t, (tlmu_init cap name).andThen (fun t0 => appendAll t0 args) = Outcome.ok t
      ∧ t.argv = [some "TLMu", some "-qmp", some "null"] ++ args.map some
          ++ none :: List.replicate (cap - (3 + args.length + 1)) none
      ∧ ∀ (w : World) (fuel : Nat) (soname : String) (res : LoadResult),
          tlmu_load w fuel t soname = some res → res.ret = 0 →
          ∃ m f, res.q.dl_handle = some m ∧ m.lookup "vl_main" = some f
            ∧ tlmu_run res.q = RunResult.called
                { fn := f, arg0 := 0, arg1 := 1, arg2 := 1, argc := 3 + args.length,
                  argv := t.argv, envp := none } := by
  have hi := init_strings cap name (cap - 4) (by omega)
  have hrep : List.replicate (cap - 4 + 1) (none : Option String)
      = List.replicate (args.length + (cap - (3 + args.length + 1)) + 1) none := by
    congr 1
    omega
  have ha := appendAll_strings args
    { zeroed cap name with
      argv := ["TLMu", "-qmp", "null"].map some ++ List.replicate (cap - 4 + 1) none }
    ["TLMu", "-qmp", "null"] (cap - (3 + args.length + 1)) (by rw [hrep])
  have hargv : (["TLMu", "-qmp", "null"] ++ args).map some
        ++ List.replicate (cap - (3 + args.length + 1) + 1) none
      = [some "TLMu", some "-qmp", some "null"] ++ args.map some
          ++ none :: List.replicate (cap - (3 + args.length + 1)) none := by
    simp [List.replicate_succ]
  refine ⟨{ zeroed cap name with
      argv := (["TLMu", "-qmp", "null"] ++ args).map some
        ++ List.replicate (cap - (3 + args.length + 1) + 1) none }, ?_, hargv, ?_⟩
  · rw [hi]
    simp only [Outcome.andThen]
    rw [ha]
  · intro w fuel soname res hload hret
    obtain ⟨hfa, _⟩ := tlmu_load_frame w fuel _ soname res hload
    obtain ⟨e, files, _, _, hc⟩ := tlmu_load_cases w fuel _ soname res hload
    simp only at hfa
    rcases hc with ⟨_, h1, _⟩ | ⟨m, _, hq, hc⟩
    · rw [hret] at h1
      exact absurd h1 (by decide)
    · rcases hc with ⟨_, h1, _⟩ | ⟨hu, _, _⟩
      · rw [hret] at h1
        exact absurd h1 (by decide)
      · rw [bindSymbols_fst] at hq
        have hm : res.q.main = m.lookup "vl_main" := by rw [hq]
        have hd : res.q.dl_handle = some m := by rw [hq]
        have hmain : res.q.main.isNone = false := by
          simp only [anyUnbound, Bool.or_eq_false_iff] at hu
          exact hu.1.1.1.1.1.1.1.1.1.1.1.1.1.1.1.1
        cases hf : res.q.main with
        | none => rw [hf] at hmain; exact absurd hmain (by decide)
        | some f =>
          refine ⟨m, f, hd, by rw [← hm, hf], ?_⟩
          have hs : scanNull res.q.argv = some (3 + args.length) := by
            rw [hfa]
            have := scanNull_strings (["TLMu", "-qmp", "null"] ++ args)
              (List.replicate (cap - (3 + args.length + 1)) none)
            rw [← List.replicate_succ] at this
            rw [this]
            simp
            omega
          unfold tlmu_run
          rw [hs, hf]
          simp only
          rw [hfa, hargv]

/-- The end-to-end scenario evaluated: instance `cpu0`, two arguments, the
stub module loaded, then `tlmu_run`. -/
theorem session_cpu0_runs :
    (tlmu_init 6 "cpu0").andThen (fun t0 => appendAll t0 ["-M", "tlm"]) = Outcome.ok sessionCpu0
    ∧ (tlmu_load (stubWorld stubFiles stubModule) 5 sessionCpu0 "lib/x.so").map
        (fun res => (res.ret, tlmu_run res.q))
      = some (0, RunResult.called
          { fn := 1, arg0 := 0, arg1 := 1, arg2 := 1, argc := 5,
            argv := [some "TLMu", some "-qmp", some "null", some "-M", some "tlm", none],
            envp := none }) := by
  decide

/-- Witness of C1: six slots, two arguments. -/
theorem c1_run_argument_vector_witness :
    3 + ["-M", "tlm"].length + 1 ≤ 6 ∧
    ∃ t, (tlmu_init 6 "cpu0").andThen (fun t0 => appendAll t0 ["-M", "tlm"]) = Outcome.ok t
      ∧ t.argv = [some "TLMu", some "-qmp", some "null"] ++ ["-M", "tlm"].map some
          ++ none :: List.replicate (6 - (3 + ["-M", "tlm"].length + 1)) none
      ∧ ∀ (w : World) (fuel : Nat) (soname : String) (res : LoadResult),
          tlmu_load w fuel t soname = some res → res.ret = 0 →
          ∃ m f, res.q.dl_handle = some m ∧ m.lookup "vl_main" = some f
            ∧ tlmu_run res.q = RunResult.called
                { fn := f, arg0 := 0, arg1 := 1, arg2 := 1, argc := 3 + ["-M", "tlm"].length,
                  argv := t.argv, envp := none } :=
  ⟨by decide, c1_run_argument_vector 6 "cpu0" ["-M", "tlm"] (by decide)⟩

/-- C2: on an array of `N` slots with `c` strings followed by the sentinel,
`tlmu_append_arg` either (when `c + 1 < N`) returns having stored the string
in slot `c` and the sentinel in slot `c + 1`, every other slot and field
unchanged, so that `c + 1 <= N - 1` strings are stored and the sentinel is
inside the array; or (when `c + 1 >= N`) stops in `assert(0)` with the record
untouched. -/
theorem c2_append_arg_bounded (t : tlmu) (a : String) (c : Nat)
    (hpre : ∀ i, i < c → ∃ s, t.argv[i]? = some (some s))
    (hnull : t.argv[c]? = some none) :
    (c + 1 < t.argv.length →
      ∃ t1, tlmu_append_arg t (some a) = Outcome.ok t1
        ∧ t1 = { t with argv := t1.argv }
        ∧ t1.argv.length = t.argv.length
        ∧ t1.argv[c]? = some (some a)
        ∧ t1.argv[c + 1]? = some none
        ∧ (∀ i, i ≠ c → i ≠ c + 1 → t1.argv[i]? = t.argv[i]?)
        ∧ c + 1 ≤ t1.argv.length - 1)
    ∧ (t.argv.length ≤ c + 1 → tlmu_append_arg t (some a) = Outcome.assertFail t) := by
  have hs := scanNull_of_index t.argv c hpre hnull
  constructor
  · intro hlt
    refine ⟨{ t with argv := (t.argv.set c (some a)).set (c + 1) none }, ?_, rfl, ?_, ?_, ?_, ?_, ?_⟩
    · unfold tlmu_append_arg
      rw [hs]
      simp only [ge_iff_le, Nat.not_le.mpr hlt, if_false]
    · simp
    · simp [List.getElem?_set]
      omega
    · simp [List.getElem?_set]
      omega
    · intro i h1 h2
      simp [List.getElem?_set, Ne.symm h1, Ne.symm h2]
    · simp
      omega
  · intro hge
    unfold tlmu_append_arg
    rw [hs]
    simp only [ge_iff_le, hge, if_true]

/-- Witness of C2: one string and the sentinel in three slots (the append
returns), and in two slots (the append stops in `assert(0)`). -/
theorem c2_append_arg_bounded_witness :
    ((∀ i, i < 1 → ∃ s, (oneArg 2).argv[i]? = some (some s))
      ∧ (oneArg 2).argv[1]? = some none
      ∧ ∃ t1, tlmu_append_arg (oneArg 2) (some "-qmp") = Outcome.ok t1
        ∧ t1 = { oneArg 2 with argv := t1.argv }
        ∧ t1.argv.length = (oneArg 2).argv.length
        ∧ t1.argv[1]? = some (some "-qmp")
        ∧ t1.argv[1 + 1]? = some none
        ∧ (∀ i, i ≠ 1 → i ≠ 1 + 1 → t1.argv[i]? = (oneArg 2).argv[i]?)
        ∧ 1 + 1 ≤ t1.argv.length - 1)
    ∧ ((∀ i, i < 1 → ∃ s, (oneArg 1).argv[i]? = some (some s))
      ∧ (oneArg 1).argv[1]? = some none
      ∧ tlmu_append_arg (oneArg 1) (some "-qmp") = Outcome.assertFail (oneArg 1)) := by
  have h1 : ∀ n, ∀ i, i < 1 → ∃ s, (oneArg n).argv[i]? = some (some s) := by
    intro n i hi
    have : i = 0 := by omega
    subst this
    exact ⟨"TLMu", by simp [oneArg]⟩
  exact ⟨⟨h1 2, rfl, (c2_append_arg_bounded (oneArg 2) "-qmp" 1 (h1 2) rfl).1 (by decide)⟩,
    ⟨h1 1, rfl, (c2_append_arg_bounded (oneArg 1) "-qmp" 1 (h1 1) rfl).2 (by decide)⟩⟩

/-! ## Symbol contract (C3, C4) -/

theorem libname_has_slash (soname name : String) : '/' ∈ (libname soname name).data := by
  simp [libname, String.data_append]

theorem dlopen_libname (w : World) (files : Files) (soname name : String) :
    dlopen w files (libname soname name) = (files (libname soname name)).bind w.loader := by
  unfold dlopen
  rw [if_pos (libname_has_slash soname name)]

theorem anyUnbound_bindSymbols (m : Module) (q : tlmu) (log : List Event) :
    anyUnbound (bindSymbols m q log).1 = false ↔ ∀ s ∈ requiredNames, m.lookup s ≠ none := by
  rw [bindSymbols_fst]
  simp only [anyUnbound, requiredNames, Bool.or_eq_false_iff, Option.isNone_eq_false_iff,
    List.mem_cons, List.mem_singleton, List.not_mem_nil, or_false, forall_eq_or_imp, forall_eq,
    ne_eq, Option.isSome_iff_ne_none, Option.isNone_iff_eq_none]
  tauto

theorem tlmu_load_returns (w : World) (fuel : Nat) (q : tlmu) (soname : String)
    (e : CopyExit) (files : Files)
    (hcopy : copylib w fuel soname (libname soname q.name) = some (e, files)) :
    ∃ res, tlmu_load w fuel q soname = some res := by
  unfold tlmu_load
  rw [hcopy]
  simp only
  split
  · exact ⟨_, rfl⟩
  · split <;> exact ⟨_, rfl⟩

/-- C3: once `copylib` has returned, `tlmu_load` returns; when the private copy
opens as module `m` it returns `0` exactly when each of the seventeen names of
the contract resolves in `m`, and when one is missing it returns non-zero
after `dlclose`; when the private copy does not open it returns non-zero. The
names of the contract are seventeen distinct names. -/
theorem c3_load_zero_iff_all_resolve (w : World) (fuel : Nat) (q : tlmu) (soname : String)
    (e : CopyExit) (files : Files)
    (hcopy : copylib w fuel soname (libname soname q.name) = some (e, files)) :
    ∃ res, tlmu_load w fuel q soname = some res
      ∧ (∀ m, dlopen w files (libname soname q.name) = some m →
          (res.ret = 0 ↔ ∀ s ∈ requiredNames, m.lookup s ≠ none)
          ∧ ((∃ s ∈ requiredNames, m.lookup s = none) →
              res.ret ≠ 0 ∧ Event.dlclose ∈ res.log))
      ∧ (dlopen w files (libname soname q.name) = none → res.ret ≠ 0)
      ∧ requiredNames.length = 17 ∧ requiredNames.Nodup := by
  obtain ⟨res, hres⟩ := tlmu_load_returns w fuel q soname e files hcopy
  refine ⟨res, hres, ?_, ?_, rfl, by decide⟩
  · intro m hm
    obtain ⟨e1, files1, hc1, _, hcase⟩ := tlmu_load_cases w fuel q soname res hres
    rw [hcopy] at hc1
    simp only [Option.some.injEq, Prod.mk.injEq] at hc1
    obtain ⟨-, rfl⟩ := hc1
    rcases hcase with ⟨hn, _⟩ | ⟨m1, hm1, hq, hcase⟩
    · rw [hm] at hn
      exact absurd hn (by simp)
    · rw [hm] at hm1
      simp only [Option.some.injEq] at hm1
      subst hm1
      have hiff := anyUnbound_bindSymbols m { q with dl_handle := some m } []
      rw [← hq] at hiff
      rcases hcase with ⟨hu, hr, hl⟩ | ⟨hu, hr, _⟩
      · have hnot : ¬ ∀ s ∈ requiredNames, List.lookup s m ≠ none := by
          intro hall
          rw [hiff.mpr hall] at hu
          exact absurd hu (by decide)
        refine ⟨?_, ?_⟩
        · rw [hr]
          exact ⟨fun h => absurd h (by decide), fun h => absurd h hnot⟩
        · intro _
          rw [hr, hl]
          exact ⟨by decide, by simp⟩
      · have hall := hiff.mp hu
        refine ⟨?_, ?_⟩
        · rw [hr]
          exact ⟨fun _ => hall, fun _ => rfl⟩
        · rintro ⟨s, hs, hnone⟩
          exact absurd hnone (hall s hs)
  · intro hn
    obtain ⟨e1, files1, hc1, _, hcase⟩ := tlmu_load_cases w fuel q soname res hres
    rw [hcopy] at hc1
    simp only [Option.some.injEq, Prod.mk.injEq] at hc1
    obtain ⟨-, rfl⟩ := hc1
    rcases hcase with ⟨_, hr, _⟩ | ⟨m1, hm1, _⟩
    · rw [hr]
      decide
    · rw [hn] at hm1
      exact absurd hm1 (by simp)

/-- Witness of C3: the stub module, copied and loaded for instance `cpu0`. -/
theorem c3_load_zero_iff_all_resolve_witness :
    copylib (stubWorld stubFiles stubModule) 5 "lib/x.so" (libname "lib/x.so" (zeroed 4 "cpu0").name)
        = some (CopyExit.copied, stubCopied)
    ∧ ∃ res, tlmu_load (stubWorld stubFiles stubModule) 5 (zeroed 4 "cpu0") "lib/x.so" = some res
      ∧ (∀ m, dlopen (stubWorld stubFiles stubModule) stubCopied
            (libname "lib/x.so" (zeroed 4 "cpu0").name) = some m →
          (res.ret = 0 ↔ ∀ s ∈ requiredNames, m.lookup s ≠ none)
          ∧ ((∃ s ∈ requiredNames, m.lookup s = none) →
              res.ret ≠ 0 ∧ Event.dlclose ∈ res.log))
      ∧ (dlopen (stubWorld stubFiles stubModule) stubCopied
            (libname "lib/x.so" (zeroed 4 "cpu0").name) = none → res.ret ≠ 0)
      ∧ requiredNames.length = 17 ∧ requiredNames.Nodup :=
  ⟨rfl, c3_load_zero_iff_all_resolve (stubWorld stubFiles stubModule) 5 (zeroed 4 "cpu0")
    "lib/x.so" CopyExit.copied stubCopied rfl⟩

theorem attempted_flatMap (m : Module) (names : List String) :
    attempted (names.flatMap (symEvents m)) = names := by
  induction names with
  | nil => rfl
  | cons s names ih =>
    rw [List.flatMap_cons]
    unfold attempted at ih ⊢
    rw [List.filterMap_append, ih]
    unfold symEvents
    split <;> simp [List.filterMap_cons]

theorem reported_flatMap (m : Module) (names : List String) :
    reported (names.flatMap (symEvents m)) = names.filter (fun s => decide (m.lookup s = none)) := by
  induction names with
  | nil => rfl
  | cons s names ih =>
    rw [List.flatMap_cons]
    unfold reported at ih ⊢
    rw [List.filterMap_append, ih]
    unfold symEvents
    split <;> simp [List.filterMap_cons, List.filter_cons, *]

theorem filter_eq_singleton (p : String → Bool) (s : String) :
    ∀ names : List String, names.Nodup → s ∈ names → p s = true →
      (∀ r ∈ names, r ≠ s → p r = false) → names.filter p = [s] := by
  intro names
  induction names with
  | nil => intro _ hs; simp at hs
  | cons x names ih =>
    intro hnd hs hp hothers
    rw [List.nodup_cons] at hnd
    by_cases hx : x = s
    · subst hx
      rw [List.filter_cons, if_pos hp]
      congr 1
      rw [List.filter_eq_nil_iff]
      intro r hr
      have hne : r ≠ x := fun h => hnd.1 (h ▸ hr)
      simp [hothers r (List.mem_cons_of_mem _ hr) hne]
    · have hs1 : s ∈ names := by
        rcases List.mem_cons.mp hs with h | h
        · exact absurd h.symm hx
        · exact h
      rw [List.filter_cons, hothers x (List.mem_cons_self _ _) hx]
      simp only [Bool.false_eq_true, if_false]
      exact ih hnd.2 hs1 hp (fun r hr hne => hothers r (List.mem_cons_of_mem _ hr) hne)

theorem mem_bindOrder_iff (s : String) : s ∈ bindOrder ↔ s ∈ requiredNames := by
  simp only [bindOrder, requiredNames, List.mem_cons, List.mem_singleton, List.not_mem_nil,
    or_false]
  tauto

theorem tlmu_load_opened (w : World) (fuel : Nat) (q : tlmu) (soname : String)
    (e : CopyExit) (files : Files) (m : Module)
    (hcopy : copylib w fuel soname (libname soname q.name) = some (e, files))
    (hopen : dlopen w files (libname soname q.name) = some m) :
    ∃ res, tlmu_load w fuel q soname = some res
      ∧ res.q = storedIn m q
      ∧ res.files = files
      ∧ ((anyUnbound res.q = true ∧ res.ret = 1
            ∧ res.log = bindOrder.flatMap (symEvents m) ++ [Event.dlclose])
          ∨ (anyUnbound res.q = false ∧ res.ret = 0
            ∧ res.log = tlmu_set_log_filename res.q (logname soname q.name)
                (bindOrder.flatMap (symEvents m)))) := by
  obtain ⟨res, hres⟩ := tlmu_load_returns w fuel q soname e files hcopy
  obtain ⟨e1, files1, hc1, hf, hcase⟩ := tlmu_load_cases w fuel q soname res hres
  rw [hcopy] at hc1
  simp only [Option.some.injEq, Prod.mk.injEq] at hc1
  obtain ⟨-, rfl⟩ := hc1
  rcases hcase with ⟨hn, _⟩ | ⟨m1, hm1, hq, hcase⟩
  · rw [hopen] at hn
    exact absurd hn (by simp)
  · rw [hopen] at hm1
    simp only [Option.some.injEq] at hm1
    subst hm1
    rw [bindSymbols_snd, List.nil_append] at hcase
    rw [bindSymbols_fst] at hq
    exact ⟨res, hres, hq, hf, hcase⟩

theorem attempted_append_one (log : List Event) (e : Event) (h : ∀ s, e ≠ Event.dlsym s) :
    attempted (log ++ [e]) = attempted log := by
  unfold attempted
  rw [List.filterMap_append]
  cases e <;> simp at h ⊢

theorem reported_append_one (log : List Event) (e : Event) (h : ∀ s, e ≠ Event.errDlsym s) :
    reported (log ++ [e]) = reported log := by
  unfold reported
  rw [List.filterMap_append]
  cases e <;> simp at h ⊢

theorem tlmu_load_log (w : World) (fuel : Nat) (q : tlmu) (soname : String)
    (e : CopyExit) (files : Files) (m : Module)
    (hcopy : copylib w fuel soname (libname soname q.name) = some (e, files))
    (hopen : dlopen w files (libname soname q.name) = some m) :
    ∃ res, tlmu_load w fuel q soname = some res
      ∧ res.q = storedIn m q
      ∧ attempted res.log = bindOrder
      ∧ reported res.log = bindOrder.filter (fun s => decide (m.lookup s = none)) := by
  obtain ⟨res, hres, hq, _, hcase⟩ := tlmu_load_opened w fuel q soname e files m hcopy hopen
  refine ⟨res, hres, hq, ?_, ?_⟩
  · rcases hcase with ⟨_, _, hl⟩ | ⟨_, _, hl⟩
    · rw [hl, attempted_append_one _ _ (by simp), attempted_flatMap]
    · rw [hl]
      unfold tlmu_set_log_filename
      split <;> rw [attempted_append_one _ _ (by simp), attempted_flatMap]
  · rcases hcase with ⟨_, _, hl⟩ | ⟨_, _, hl⟩
    · rw [hl, reported_append_one _ _ (by simp), reported_flatMap]
    · rw [hl]
      unfold tlmu_set_log_filename
      split <;> rw [reported_append_one _ _ (by simp), reported_flatMap]

/-- C4: when the private copy opens as module `m`, `tlmu_load` calls `dlsym`
for all seventeen names whatever the earlier results; the names it reports
are the required names with no symbol in `m`, each once; every field holds
what `dlsym` gave for its name; and a module that lacks one required name
only has exactly that name reported. -/
theorem c4_no_early_exit (w : World) (fuel : Nat) (q : tlmu) (soname : String)
    (e : CopyExit) (files : Files) (m : Module)
    (hcopy : copylib w fuel soname (libname soname q.name) = some (e, files))
    (hopen : dlopen w files (libname soname q.name) = some m) :
    ∃ res, tlmu_load w fuel q soname = some res
      ∧ attempted res.log = bindOrder
      ∧ (∀ s, s ∈ attempted res.log ↔ s ∈ requiredNames)
      ∧ (∀ s, s ∈ reported res.log ↔ s ∈ requiredNames ∧ m.lookup s = none)
      ∧ (reported res.log).Nodup
      ∧ res.q = storedIn m q
      ∧ (∀ s ∈ requiredNames, m.lookup s = none →
          (∀ r ∈ requiredNames, r ≠ s → m.lookup r ≠ none) → reported res.log = [s]) := by
  obtain ⟨res, hres, hq, ha, hr⟩ := tlmu_load_log w fuel q soname e files m hcopy hopen
  have hnd : bindOrder.Nodup := by decide
  refine ⟨res, hres, ha, ?_, ?_, ?_, hq, ?_⟩
  · intro s
    rw [ha]
    exact mem_bindOrder_iff s
  · intro s
    rw [hr, List.mem_filter, mem_bindOrder_iff]
    simp
  · rw [hr]
    exact hnd.filter _
  · intro s hs hnone hothers
    rw [hr]
    apply filter_eq_singleton _ s bindOrder hnd ((mem_bindOrder_iff s).mpr hs)
    · simp [hnone]
    · intro r hr1 hne
      simp [hothers r ((mem_bindOrder_iff r).mp hr1) hne]

/-- Witness of C4: the stub module without `tlm_sync`. -/
theorem c4_no_early_exit_witness :
    copylib (stubWorld stubFiles (moduleWithout "tlm_sync")) 5 "lib/x.so"
        (libname "lib/x.so" (zeroed 4 "cpu0").name) = some (CopyExit.copied, stubCopied)
    ∧ dlopen (stubWorld stubFiles (moduleWithout "tlm_sync")) stubCopied
        (libname "lib/x.so" (zeroed 4 "cpu0").name) = some (moduleWithout "tlm_sync")
    ∧ ∃ res, tlmu_load (stubWorld stubFiles (moduleWithout "tlm_sync")) 5 (zeroed 4 "cpu0")
          "lib/x.so" = some res
      ∧ attempted res.log = bindOrder
      ∧ (∀ s, s ∈ attempted res.log ↔ s ∈ requiredNames)
      ∧ (∀ s, s ∈ reported res.log ↔ s ∈ requiredNames ∧ (moduleWithout "tlm_sync").lookup s = none)
      ∧ (reported res.log).Nodup
      ∧ res.q = storedIn (moduleWithout "tlm_sync") (zeroed 4 "cpu0")
      ∧ (∀ s ∈ requiredNames, (moduleWithout "tlm_sync").lookup s = none →
          (∀ r ∈ requiredNames, r ≠ s → (moduleWithout "tlm_sync").lookup r ≠ none) →
          reported res.log = [s]) :=
  ⟨rfl, rfl, c4_no_early_exit (stubWorld stubFiles (moduleWithout "tlm_sync")) 5 (zeroed 4 "cpu0")
    "lib/x.so" CopyExit.copied stubCopied (moduleWithout "tlm_sync") rfl rfl⟩

/-- The load of the stub module without `tlm_sync`, evaluated: it returns `1`,
all seventeen names are looked up, and only `tlm_sync` is reported. -/
theorem load_without_tlm_sync :
    (tlmu_load (stubWorld stubFiles (moduleWithout "tlm_sync")) 5 (zeroed 4 "cpu0") "lib/x.so").map
        (fun res => (res.ret, attempted res.log, reported res.log))
      = some (1, bindOrder, ["tlm_sync"]) := by
  decide

/-! ## The record after a failed load (C5, C6) -/

theorem load_record_cases (w : World) (fuel : Nat) (q : tlmu) (soname : String)
    (res : LoadResult) (hload : tlmu_load w fuel q soname = some res) :
    (res.q = { q with dl_handle := none } ∧ res.ret = 1) ∨ ∃ m, res.q = storedIn m q := by
  obtain ⟨e, files, hcopy, _, hcase⟩ := tlmu_load_cases w fuel q soname res hload
  rcases hcase with ⟨_, hr, hq, _⟩ | ⟨m, hm, _, _⟩
  · exact Or.inl ⟨hq, hr⟩
  · obtain ⟨res1, hres1, hq, _⟩ := tlmu_load_opened w fuel q soname e files m hcopy hm
    rw [hload] at hres1
    simp only [Option.some.injEq] at hres1
    subst hres1
    exact Or.inr ⟨m, hq⟩

/-- C5, counterexample: the stub module without `tlm_sync` is loaded into a
fresh record; `tlmu_load` returns `1`, and the record it leaves holds the
handle of the module and its `vl_main` next to a `NULL` field `tlm_sync`. -/
theorem c5_partial_binding_exposed :
    tlmu_init 4 "cpu0" = Outcome.ok initCpu0
    ∧ (tlmu_load (stubWorld stubFiles (moduleWithout "tlm_sync")) 5 initCpu0 "lib/x.so").map
        (fun res => (res.ret, res.q.dl_handle, res.q.main, res.q.tlm_sync))
      = some (1, some (moduleWithout "tlm_sync"), some 1, none) := by
  decide

/-- C5, amended: after `tlmu_load` returns `0` every binding field holds the
symbol of the opened module and all seventeen are resolved; after a non-zero
return the record is not cleared: either the private copy did not open, the
handle is `NULL` and no `dlsym` was done, the binding fields being as before
the call, or a required name is missing, `dlclose` was called, and the record
keeps the handle and what `dlsym` gave for every name. -/
theorem c5_binding_after_load (w : World) (fuel : Nat) (q : tlmu) (soname : String)
    (res : LoadResult) (hload : tlmu_load w fuel q soname = some res) :
    (res.ret = 0 ∧ ∃ m, res.q = storedIn m q ∧ ∀ s ∈ requiredNames, m.lookup s ≠ none)
    ∨ (res.ret = 1 ∧ res.q = { q with dl_handle := none } ∧ attempted res.log = [])
    ∨ (res.ret = 1 ∧ ∃ m, res.q = storedIn m q ∧ (∃ s ∈ requiredNames, m.lookup s = none)
        ∧ Event.dlclose ∈ res.log) := by
  obtain ⟨e, files, hcopy, _, hcase⟩ := tlmu_load_cases w fuel q soname res hload
  rcases hcase with ⟨_, hr, hq, hl⟩ | ⟨m, hm, _, _⟩
  · right
    left
    exact ⟨hr, hq, by rw [hl]; rfl⟩
  · obtain ⟨res1, hres1, hq, _, hcase⟩ := tlmu_load_opened w fuel q soname e files m hcopy hm
    rw [hload] at hres1
    simp only [Option.some.injEq] at hres1
    subst hres1
    have hiff := anyUnbound_bindSymbols m { q with dl_handle := some m } []
    rw [bindSymbols_fst] at hiff
    have hiff1 : anyUnbound res.q = false ↔ ∀ s ∈ requiredNames, m.lookup s ≠ none := by
      rw [hq]
      exact hiff
    rcases hcase with ⟨hu, hr, hl⟩ | ⟨hu, hr, _⟩
    · right
      right
      refine ⟨hr, m, hq, ?_, by rw [hl]; simp⟩
      by_contra hcon
      push_neg at hcon
      rw [hiff1.mpr hcon] at hu
      exact absurd hu (by decide)
    · left
      exact ⟨hr, m, hq, hiff1.mp hu⟩

/-- Witness of C5 (amended): the load of the stub module without `tlm_sync`. -/
theorem c5_binding_after_load_witness :
    tlmu_load (stubWorld stubFiles (moduleWithout "tlm_sync")) 5 initCpu0 "lib/x.so"
        = some (failedLoad "tlm_sync")
    ∧ (((failedLoad "tlm_sync").ret = 0 ∧ ∃ m, (failedLoad "tlm_sync").q = storedIn m initCpu0
          ∧ ∀ s ∈ requiredNames, m.lookup s ≠ none)
      ∨ ((failedLoad "tlm_sync").ret = 1
          ∧ (failedLoad "tlm_sync").q = { initCpu0 with dl_handle := none }
          ∧ attempted (failedLoad "tlm_sync").log = [])
      ∨ ((failedLoad "tlm_sync").ret = 1 ∧ ∃ m, (failedLoad "tlm_sync").q = storedIn m initCpu0
          ∧ (∃ s ∈ requiredNames, m.lookup s = none)
          ∧ Event.dlclose ∈ (failedLoad "tlm_sync").log)) :=
  ⟨rfl, c5_binding_after_load (stubWorld stubFiles (moduleWithout "tlm_sync")) 5 initCpu0
    "lib/x.so" (failedLoad "tlm_sync") rfl⟩

/-- C6, counterexample: the stub module without `tlm_sync` is loaded into a
fresh record; `tlmu_load` returns `1`, and `tlmu_run` on the record it leaves
calls the entry point `vl_main` of that module, at address `1`. -/
theorem c6_run_after_failed_load :
    tlmu_init 4 "cpu0" = Outcome.ok initCpu0
    ∧ (moduleWithout "tlm_sync").lookup "vl_main" = some 1
    ∧ (tlmu_load (stubWorld stubFiles (moduleWithout "tlm_sync")) 5 initCpu0 "lib/x.so").map
        (fun res => (res.ret, tlmu_run res.q))
      = some (1, RunResult.called
          { fn := 1, arg0 := 0, arg1 := 1, arg2 := 1, argc := 3,
            argv := [some "TLMu", some "-qmp", some "null", none], envp := none }) := by
  decide

/-- C6, amended: on a record whose `main` is `NULL` before the load (as
`tlmu_init` leaves it), when the private copy did not open or `vl_main` is
missing from the module, `tlmu_load` returns non-zero, `main` is `NULL`
afterwards and `tlmu_run` calls no entry point; and when the private copy did
not open, every binding field is as it was before the load. -/
theorem c6_failed_load_not_started (w : World) (fuel : Nat) (q : tlmu) (soname : String)
    (res : LoadResult) (hfresh : q.main = none)
    (hload : tlmu_load w fuel q soname = some res)
    (hcause : ∀ m, res.q.dl_handle = some m → m.lookup "vl_main" = none) :
    res.ret ≠ 0
    ∧ res.q.main = none
    ∧ (∀ c, tlmu_run res.q ≠ RunResult.called c)
    ∧ (res.q.dl_handle = none → res.q = { q with dl_handle := none }) := by
  have hmain : res.q.main = none := by
    rcases load_record_cases w fuel q soname res hload with ⟨hq, _⟩ | ⟨m, hq⟩
    · rw [hq]
      exact hfresh
    · have := hcause m (by rw [hq]; rfl)
      rw [hq]
      exact this
  refine ⟨?_, hmain, ?_, ?_⟩
  · obtain ⟨e, files, _, _, hcase⟩ := tlmu_load_cases w fuel q soname res hload
    rcases hcase with ⟨_, hr, _⟩ | ⟨m, _, _, ⟨_, hr, _⟩ | ⟨hu, _, _⟩⟩
    · rw [hr]
      decide
    · rw [hr]
      decide
    · simp only [anyUnbound, Bool.or_eq_false_iff] at hu
      have h1 := hu.1.1.1.1.1.1.1.1.1.1.1.1.1.1.1.1
      rw [hmain] at h1
      exact absurd h1 (by decide)
  · intro c
    unfold tlmu_run
    rw [hmain]
    split <;> simp
  · intro hnone
    rcases load_record_cases w fuel q soname res hload with ⟨hq, _⟩ | ⟨m, hq⟩
    · exact hq
    · rw [hq] at hnone
      exact absurd hnone (by simp [storedIn])

/-- Witness of C6 (amended): the load of the stub module without `vl_main`. -/
theorem c6_failed_load_not_started_witness :
    initCpu0.main = none
    ∧ tlmu_load (stubWorld stubFiles (moduleWithout "vl_main")) 5 initCpu0 "lib/x.so"
        = some (failedLoad "vl_main")
    ∧ (∀ m, (failedLoad "vl_main").q.dl_handle = some m → m.lookup "vl_main" = none)
    ∧ (failedLoad "vl_main").ret ≠ 0
    ∧ (failedLoad "vl_main").q.main = none
    ∧ (∀ c, tlmu_run (failedLoad "vl_main").q ≠ RunResult.called c)
    ∧ ((failedLoad "vl_main").q.dl_handle = none →
        (failedLoad "vl_main").q = { initCpu0 with dl_handle := none }) :=
  have hc : ∀ m, (failedLoad "vl_main").q.dl_handle = some m → m.lookup "vl_main" = none := by
    intro m hm
    have h1 : (failedLoad "vl_main").q.dl_handle = some (moduleWithout "vl_main") := rfl
    rw [h1] at hm
    simp only [Option.some.injEq] at hm
    subst hm
    decide
  ⟨rfl, rfl, hc,
    c6_failed_load_not_started (stubWorld stubFiles (moduleWithout "vl_main")) 5 initCpu0
      "lib/x.so" (failedLoad "vl_main") rfl rfl hc⟩

/-! ## Properties of the copy loop -/

theorem sysRead_full (w : World) (src : String) (st : CopyState)
    (h : w.reads st.nread = ReadOutcome.full) :
    sysRead w src st
      = ((((((st.files src).getD []).drop st.spos).take BUFSZ).length : Int), Errno.EOTHER,
          (((st.files src).getD []).drop st.spos).take BUFSZ,
          { st with nread := st.nread + 1,
                    spos := st.spos + ((((st.files src).getD []).drop st.spos).take BUFSZ).length }) := by
  unfold sysRead
  rw [h]

theorem sysWrite_full (w : World) (dst : String) (buf : List Nat) (r : Nat) (st : CopyState)
    (h : w.writes st.nwrite = WriteOutcome.full) :
    sysWrite w dst buf r st
      = (((buf.take r).length : Int),
          { st with nwrite := st.nwrite + 1,
                    files := st.files.put dst (writeAt ((st.files dst).getD []) st.dpos (buf.take r)),
                    dpos := st.dpos + (buf.take r).length }) := by
  unfold sysWrite
  rw [h]

theorem writeLoop_full (w : World) (dst : String) (buf : List Nat) (fuel : Nat) (st : CopyState)
    (h : w.writes st.nwrite = WriteOutcome.full) (hbuf : buf ≠ []) :
    writeLoop w dst buf buf.length (fuel + 1) 0 st
      = some (true,
          { st with nwrite := st.nwrite + 1,
                    files := st.files.put dst (writeAt ((st.files dst).getD []) st.dpos buf),
                    dpos := st.dpos + buf.length }) := by
  have hpos : 0 < buf.length := List.length_pos.mpr hbuf
  rw [writeLoop, sysWrite_full w dst buf _ st h]
  simp only [Int.toNat_ofNat, List.take_length, zero_add, lt_self_iff_false, if_false]
  rw [if_neg (by omega)]

theorem put_same (fs : Files) (p : String) (c : List Nat) : (fs.put p c) p = some c := by
  simp [Files.put]

theorem put_other (fs : Files) (p x : String) (c : List Nat) (h : x ≠ p) :
    (fs.put p c) x = fs x := by
  simp [Files.put, h]

theorem writeAt_chunk (content d0 : List Nat) (pos n : Nat) (hle : pos ≤ content.length) :
    writeAt (content.take pos ++ d0.drop pos) pos ((content.drop pos).take n)
      = content.take (pos + ((content.drop pos).take n).length)
          ++ d0.drop (pos + ((content.drop pos).take n).length) := by
  have hl : (content.take pos).length = pos := by simp [hle]
  unfold writeAt
  congr 1
  · rw [List.take_append_of_le_length (by omega), List.take_take, Nat.min_self, List.take_add]
    congr 1
    rw [List.length_take, List.take_eq_take]
    simp
  · rw [List.drop_append_eq_append_drop, hl]
    rw [List.drop_of_length_le (by simp), List.nil_append, List.drop_drop]
    congr 1
    omega

theorem copyLoop_full (w : World) (src dst : String) (content d0 : List Nat)
    (hreads : ∀ n, w.reads n = ReadOutcome.full) (hwrites : ∀ n, w.writes n = WriteOutcome.full)
    (hne : src ≠ dst) :
    ∀ (fuel : Nat) (st : CopyState),
      st.files src = some content →
      st.files dst = some (content.take st.spos ++ d0.drop st.spos) →
      st.dpos = st.spos → st.spos ≤ content.length →
      content.length - st.spos + 2 ≤ fuel →
      ∃ st1, copyLoop w src dst fuel st = some (CopyExit.copied, st1)
        ∧ st1.files dst = some (content ++ d0.drop content.length)
        ∧ ∀ p, p ≠ dst → st1.files p = st.files p := by
  intro fuel
  induction fuel with
  | zero =>
    intro st _ _ _ _ hf
    omega
  | succ fuel ih =>
    intro st hsrc hdst hpos hle hf
    rw [copyLoop, sysRead_full w src st (hreads _)]
    simp only [hsrc, Option.getD_some]
    by_cases hd : (content.drop st.spos).take BUFSZ = []
    · have hlen : content.length ≤ st.spos := by
        rw [List.take_eq_nil_iff] at hd
        rcases hd with h | h
        · exact absurd h (by decide)
        · simpa using h
      have heq : st.spos = content.length := by omega
      simp only [hd, List.length_nil, Nat.cast_zero, lt_self_iff_false, false_and, if_false,
        gt_iff_lt, ne_eq, not_true_eq_false]
      refine ⟨_, rfl, ?_, fun p _ => rfl⟩
      simp only [hdst, heq, List.take_length]
    · have hpos1 : 0 < ((content.drop st.spos).take BUFSZ).length := List.length_pos.mpr hd
      have hr : ((content.drop st.spos).take BUFSZ).length ≤ content.length - st.spos := by
        simp
      obtain ⟨f, rfl⟩ : ∃ f, fuel = f + 1 := ⟨fuel - 1, by omega⟩
      have hnn : ¬ ((((content.drop st.spos).take BUFSZ).length : Int) < 0) := by omega
      have hgt : (((content.drop st.spos).take BUFSZ).length : Int) > 0 := by omega
      have hnz : (((content.drop st.spos).take BUFSZ).length : Int) ≠ 0 := by omega
      simp only [hnn, false_and, if_false, hgt, if_true]
      rw [writeLoop_full w dst _ f _ (hwrites _) hd]
      simp only [hnz, ne_eq, not_false_eq_true, if_true]
      obtain ⟨st1, h1, h2, h3⟩ := ih
        { files := st.files.put dst
            (writeAt ((st.files dst).getD []) st.dpos ((content.drop st.spos).take BUFSZ)),
          spos := st.spos + ((content.drop st.spos).take BUFSZ).length,
          dpos := st.dpos + ((content.drop st.spos).take BUFSZ).length,
          nread := st.nread + 1, nwrite := st.nwrite + 1 }
        (by simp only; rw [put_other _ _ _ _ hne]; exact hsrc)
        (by simp only; rw [put_same, hdst, hpos, Option.getD_some, writeAt_chunk _ _ _ _ hle])
        (by simp only; rw [hpos])
        (by simp only; omega)
        (by simp only; omega)
      refine ⟨st1, h1, h2, ?_⟩
      intro p hp
      rw [h3 p hp]
      exact put_other _ _ _ _ hp

theorem copylib_full (w : World) (fuel : Nat) (path newpath src : String) (content : List Nat)
    (hreads : ∀ n, w.reads n = ReadOutcome.full) (hwrites : ∀ n, w.writes n = WriteOutcome.full)
    (hres : resolveSource w path = some src) (hsrc : w.files src = some content)
    (hrd : w.canRead src = true) (hwr : w.canWrite newpath = true) (hne : src ≠ newpath)
    (hfuel : content.length + 2 ≤ fuel) :
    ∃ files, copylib w fuel path newpath = some (CopyExit.copied, files)
      ∧ files newpath = some (content ++ ((w.files newpath).getD []).drop content.length)
      ∧ ∀ p, p ≠ newpath → files p = w.files p := by
  obtain ⟨st1, h1, h2, h3⟩ := copyLoop_full w src newpath content ((w.files newpath).getD [])
    hreads hwrites hne fuel
    { files := w.files.put newpath ((w.files newpath).getD []), spos := 0, dpos := 0,
      nread := 0, nwrite := 0 }
    (by simp only; rw [put_other _ _ _ _ hne]; exact hsrc)
    (by simp only; rw [put_same]; simp)
    rfl (Nat.zero_le _) (by simp only; omega)
  refine ⟨st1.files, ?_, h2, ?_⟩
  · unfold copylib
    rw [hres]
    simp only [hsrc, Option.isSome_some, hrd, and_self, if_true, hwr]
    rw [h1]
  · intro p hp
    rw [h3 p hp]
    exact put_other _ _ _ _ hp

theorem copyLoop_exit (w : World) (src dst : String) :
    ∀ (fuel : Nat) (st : CopyState) (e : CopyExit) (st1 : CopyState),
      copyLoop w src dst fuel st = some (e, st1) →
      e = CopyExit.copied ∨ e = CopyExit.writeFailed := by
  intro fuel
  induction fuel with
  | zero =>
    intro st e st1 h
    simp [copyLoop] at h
  | succ fuel ih =>
    intro st e st1 h
    rw [copyLoop] at h
    rcases hsr : sysRead w src st with ⟨r, errno, buf, st2⟩
    rw [hsr] at h
    simp only at h
    split_ifs at h with h1 h2 h3 h4
    · exact ih _ _ _ h
    · simp only [Option.some.injEq, Prod.mk.injEq] at h
      exact Or.inl h.1.symm
    · split at h
      · exact absurd h (by simp)
      · simp only [Option.some.injEq, Prod.mk.injEq] at h
        exact Or.inr h.1.symm
      · exact ih _ _ _ h
    · split at h
      · exact absurd h (by simp)
      · simp only [Option.some.injEq, Prod.mk.injEq] at h
        exact Or.inr h.1.symm
      · simp only [Option.some.injEq, Prod.mk.injEq] at h
        exact Or.inl h.1.symm
    · exact ih _ _ _ h
    · simp only [Option.some.injEq, Prod.mk.injEq] at h
      exact Or.inl h.1.symm

theorem copylib_early_exit (w : World) (fuel : Nat) (path newpath : String) (e : CopyExit)
    (files : Files) (h : copylib w fuel path newpath = some (e, files))
    (h1 : e ≠ CopyExit.copied) (h2 : e ≠ CopyExit.writeFailed) : files = w.files := by
  unfold copylib at h
  split at h
  · simp only [Option.some.injEq, Prod.mk.injEq] at h
    exact h.2.symm
  · split_ifs at h
    · simp only at h
      split at h
      · exact absurd h (by simp)
      · rename_i e1 st hl
        simp only [Option.some.injEq, Prod.mk.injEq] at h
        rcases copyLoop_exit _ _ _ _ _ _ _ hl with hc | hc
        · exact absurd (h.1 ▸ hc) h1
        · exact absurd (h.1 ▸ hc) h2
    · simp only [Option.some.injEq, Prod.mk.injEq] at h
      exact h.2.symm
    · simp only [Option.some.injEq, Prod.mk.injEq] at h
      exact h.2.symm

/-! ## The private copy (C7, C8, C9) -/

/-- C7, counterexample: the source holds two bytes, the destination exists
with three; every `read` and `write` succeeds in full, `copylib` ends its
loop, and the destination then holds the two bytes of the source followed by
the third byte of its old content. -/
theorem c7_longer_destination_keeps_tail :
    (∀ n, (staleWorld [127, 1] [9, 9, 9]).reads n = ReadOutcome.full)
    ∧ (∀ n, (staleWorld [127, 1] [9, 9, 9]).writes n = WriteOutcome.full)
    ∧ (copylib (staleWorld [127, 1] [9, 9, 9]) 5 "lib/x.so" ".tlmu/x.so-cpu0").map
        (fun r => (r.1, r.2 "lib/x.so", r.2 ".tlmu/x.so-cpu0"))
      = some (CopyExit.copied, some [127, 1], some [127, 1, 9]) :=
  ⟨fun _ => rfl, fun _ => rfl, by decide⟩

/-- C7, amended: when the source resolves to a file that opens for reading, no
file is at the destination path before the call, the destination opens for
writing and every `read` and `write` succeeds in full, `copylib` ends its loop
(with enough fuel) and the destination then holds the content of the source
byte for byte; the source and every other file are unchanged. -/
theorem c7_copy_to_absent_destination (w : World) (fuel : Nat) (path newpath src : String)
    (content : List Nat)
    (hreads : ∀ n, w.reads n = ReadOutcome.full) (hwrites : ∀ n, w.writes n = WriteOutcome.full)
    (hres : resolveSource w path = some src) (hsrc : w.files src = some content)
    (hrd : w.canRead src = true) (hwr : w.canWrite newpath = true)
    (habsent : w.files newpath = none) (hfuel : content.length + 2 ≤ fuel) :
    ∃ files, copylib w fuel path newpath = some (CopyExit.copied, files)
      ∧ files newpath = some content
      ∧ files src = some content
      ∧ ∀ p, p ≠ newpath → files p = w.files p := by
  have hne : src ≠ newpath := by
    intro h
    rw [h, habsent] at hsrc
    exact absurd hsrc (by simp)
  obtain ⟨files, h1, h2, h3⟩ :=
    copylib_full w fuel path newpath src content hreads hwrites hres hsrc hrd hwr hne hfuel
  refine ⟨files, h1, ?_, ?_, h3⟩
  · rw [h2, habsent]
    simp
  · rw [h3 src hne, hsrc]

/-- Witness of C7 (amended): the one-byte module copied for instance `cpu0`. -/
theorem c7_copy_to_absent_destination_witness :
    (∀ n, (stubWorld stubFiles stubModule).reads n = ReadOutcome.full)
    ∧ (∀ n, (stubWorld stubFiles stubModule).writes n = WriteOutcome.full)
    ∧ resolveSource (stubWorld stubFiles stubModule) "lib/x.so" = some "lib/x.so"
    ∧ (stubWorld stubFiles stubModule).files "lib/x.so" = some [127]
    ∧ (stubWorld stubFiles stubModule).canRead "lib/x.so" = true
    ∧ (stubWorld stubFiles stubModule).canWrite ".tlmu/x.so-cpu0" = true
    ∧ (stubWorld stubFiles stubModule).files ".tlmu/x.so-cpu0" = none
    ∧ [127].length + 2 ≤ 5
    ∧ ∃ files, copylib (stubWorld stubFiles stubModule) 5 "lib/x.so" ".tlmu/x.so-cpu0"
          = some (CopyExit.copied, files)
      ∧ files ".tlmu/x.so-cpu0" = some [127]
      ∧ files "lib/x.so" = some [127]
      ∧ ∀ p, p ≠ ".tlmu/x.so-cpu0" → files p = (stubWorld stubFiles stubModule).files p :=
  ⟨fun _ => rfl, fun _ => rfl, by decide, by decide, rfl, rfl, by decide, by decide,
    c7_copy_to_absent_destination (stubWorld stubFiles stubModule) 5 "lib/x.so"
      ".tlmu/x.so-cpu0" "lib/x.so" [127] (fun _ => rfl) (fun _ => rfl) (by decide) (by decide)
      rfl rfl (by decide) (by decide)⟩

/-- C8, the code at the failing input: a file of two bytes is already at the
destination; `copylib` opens it, ends its loop normally and has overwritten
its first byte with the byte of the source. -/
theorem c8_existing_destination_overwritten :
    (staleWorld [127] [9, 9]).files ".tlmu/x.so-cpu0" = some [9, 9]
    ∧ (copylib (staleWorld [127] [9, 9]) 5 "lib/x.so" ".tlmu/x.so-cpu0").map
        (fun r => (r.1, r.2 ".tlmu/x.so-cpu0"))
      = some (CopyExit.copied, some [127, 9]) := by
  decide

theorem tlmu_load_not_opened (w : World) (fuel : Nat) (q : tlmu) (soname : String)
    (e : CopyExit) (files : Files)
    (hcopy : copylib w fuel soname (libname soname q.name) = some (e, files))
    (hno : dlopen w files (libname soname q.name) = none) :
    ∃ res, tlmu_load w fuel q soname = some res ∧ res.ret = 1
      ∧ res.q = { q with dl_handle := none } := by
  obtain ⟨res, hres⟩ := tlmu_load_returns w fuel q soname e files hcopy
  obtain ⟨e1, files1, hc1, _, hcase⟩ := tlmu_load_cases w fuel q soname res hres
  rw [hcopy] at hc1
  simp only [Option.some.injEq, Prod.mk.injEq] at hc1
  obtain ⟨-, rfl⟩ := hc1
  rcases hcase with ⟨_, hr, hq, _⟩ | ⟨m1, hm1, _⟩
  · exact ⟨res, hres, hr, hq⟩
  · rw [hno] at hm1
    exact absurd hm1 (by simp)

/-- C9, counterexample: the source `lib/x.so` does not exist and cannot be
resolved, so `copylib` leaves by its first error exit; a loadable file is at
the private copy path already, and `tlmu_load` returns `0`. -/
theorem c9_failed_copy_load_succeeds :
    (copylib orphanWorld 5 "lib/x.so" (libname "lib/x.so" "cpu0")).map (fun r => r.1)
      = some CopyExit.noSource
    ∧ (tlmu_load orphanWorld 5 initCpu0 "lib/x.so").map (fun res => res.ret) = some 0 := by
  decide

/-- C9, amended: when `copylib` leaves by an error exit, `tlmu_load` returns
non-zero provided the private copy path is then not loadable; that is so in
particular when no file was at that path before the call and the exit is not
the one of a failed `write`. -/
theorem c9_failed_copy_fails_load (w : World) (fuel : Nat) (q : tlmu) (soname : String)
    (e : CopyExit) (files : Files)
    (hcopy : copylib w fuel soname (libname soname q.name) = some (e, files))
    (hfail : e ≠ CopyExit.copied)
    (hleft : dlopen w files (libname soname q.name) = none
      ∨ (w.files (libname soname q.name) = none ∧ e ≠ CopyExit.writeFailed)) :
    ∃ res, tlmu_load w fuel q soname = some res ∧ res.ret ≠ 0
      ∧ dlopen w files (libname soname q.name) = none := by
  have hno : dlopen w files (libname soname q.name) = none := by
    rcases hleft with h | ⟨h1, h2⟩
    · exact h
    · rw [dlopen_libname, copylib_early_exit w fuel soname _ e files hcopy hfail h2, h1]
      rfl
  obtain ⟨res, hres, hr, _⟩ := tlmu_load_not_opened w fuel q soname e files hcopy hno
  exact ⟨res, hres, by rw [hr]; decide, hno⟩

/-- Witness of C9 (amended): no file at all; the source is not resolved. -/
theorem c9_failed_copy_fails_load_witness :
    copylib (stubWorld (filesOf []) stubModule) 5 "lib/x.so" (libname "lib/x.so" initCpu0.name)
        = some (CopyExit.noSource, filesOf [])
    ∧ CopyExit.noSource ≠ CopyExit.copied
    ∧ (dlopen (stubWorld (filesOf []) stubModule) (filesOf []) (libname "lib/x.so" initCpu0.name)
          = none
        ∨ ((stubWorld (filesOf []) stubModule).files (libname "lib/x.so" initCpu0.name) = none
          ∧ CopyExit.noSource ≠ CopyExit.writeFailed))
    ∧ ∃ res, tlmu_load (stubWorld (filesOf []) stubModule) 5 initCpu0 "lib/x.so" = some res
      ∧ res.ret ≠ 0
      ∧ dlopen (stubWorld (filesOf []) stubModule) (filesOf []) (libname "lib/x.so" initCpu0.name)
          = none :=
  ⟨rfl, by decide, Or.inr ⟨rfl, by decide⟩,
    c9_failed_copy_fails_load (stubWorld (filesOf []) stubModule) 5 initCpu0 "lib/x.so"
      CopyExit.noSource (filesOf []) rfl (by decide) (Or.inr ⟨rfl, by decide⟩)⟩

/-! ## Private copy paths (C10) -/

theorem suffix_after_last (a : Char) :
    ∀ (l1 l2 r1 r2 : List Char), l1 ++ a :: r1 = l2 ++ a :: r2 → a ∉ r1 → a ∉ r2 → r1 = r2 := by
  intro l1
  induction l1 with
  | nil =>
    intro l2 r1 r2 h h1 h2
    cases l2 with
    | nil =>
      simp only [List.nil_append, List.cons.injEq, true_and] at h
      exact h
    | cons x l2 =>
      simp only [List.nil_append, List.cons_append, List.cons.injEq] at h
      exact absurd (h.2 ▸ (by simp : a ∈ l2 ++ a :: r2)) h1
  | cons y l1 ih =>
    intro l2 r1 r2 h h1 h2
    cases l2 with
    | nil =>
      simp only [List.nil_append, List.cons_append, List.cons.injEq] at h
      exact absurd (h.2 ▸ (by simp : a ∈ l1 ++ a :: r1)) h2
    | cons x l2 =>
      simp only [List.cons_append, List.cons.injEq] at h
      exact ih l2 r1 r2 h.2 h1 h2

theorem libname_data (soname name : String) :
    (libname soname name).data
      = ".tlmu/".data ++ ((basename soname).data ++ '-' :: name.data) := by
  simp [libname, String.data_append]

/-- C10, counterexample: module `a` with instance name `b-c` and module `a-b`
with instance name `c` have the same private copy path `.tlmu/a-b-c`. -/
theorem c10_paths_collide :
    "b-c" ≠ "c" ∧ libname "a" "b-c" = ".tlmu/a-b-c" ∧ libname "a-b" "c" = ".tlmu/a-b-c" := by
  decide

/-- C10, amended: for instance names `n1 != n2`, the private copy paths differ
when the two module specifiers have the same basename, and also when neither
name contains the character `-`. -/
theorem c10_distinct_names_distinct_paths (s1 s2 n1 n2 : String) (hne : n1 ≠ n2)
    (h : basename s1 = basename s2 ∨ ('-' ∉ n1.data ∧ '-' ∉ n2.data)) :
    libname s1 n1 ≠ libname s2 n2 := by
  intro heq
  have hd : (libname s1 n1).data = (libname s2 n2).data := by rw [heq]
  rw [libname_data, libname_data] at hd
  have hd1 := List.append_cancel_left hd
  apply hne
  apply String.ext
  rcases h with hb | ⟨h1, h2⟩
  · rw [hb] at hd1
    have := List.append_cancel_left hd1
    simpa using this
  · exact suffix_after_last '-' _ _ _ _ hd1 h1 h2

/-- Witness of C10 (amended): one module, instances `cpu0` and `cpu1`. -/
theorem c10_distinct_names_distinct_paths_witness :
    "cpu0" ≠ "cpu1"
    ∧ (basename "lib/x.so" = basename "lib/x.so" ∨ ('-' ∉ "cpu0".data ∧ '-' ∉ "cpu1".data))
    ∧ libname "lib/x.so" "cpu0" ≠ libname "lib/x.so" "cpu1" :=
  ⟨by decide, Or.inl rfl,
    c10_distinct_names_distinct_paths "lib/x.so" "lib/x.so" "cpu0" "cpu1" (by decide) (Or.inl rfl)⟩

/-! ## The record after a load that returned `0` -/

theorem anyUnbound_storedIn (m : Module) (q : tlmu) :
    anyUnbound (storedIn m q) = false ↔ ∀ s ∈ requiredNames, m.lookup s ≠ none := by
  have h := anyUnbound_bindSymbols m { q with dl_handle := some m } []
  rw [bindSymbols_fst] at h
  exact h

theorem tlmu_load_ok (w : World) (fuel : Nat) (q : tlmu) (soname : String) (res : LoadResult)
    (hload : tlmu_load w fuel q soname = some res) (hret : res.ret = 0) :
    ∃ m, res.q = storedIn m q ∧ (∀ s ∈ requiredNames, m.lookup s ≠ none)
      ∧ res.log = tlmu_set_log_filename res.q (logname soname q.name)
          (bindOrder.flatMap (symEvents m)) := by
  obtain ⟨e, files, hcopy, _, hcase⟩ := tlmu_load_cases w fuel q soname res hload
  rcases hcase with ⟨_, hr, _⟩ | ⟨m, hm, _, _⟩
  · rw [hret] at hr
    exact absurd hr (by decide)
  · obtain ⟨res1, hres1, hq, _, hcase⟩ := tlmu_load_opened w fuel q soname e files m hcopy hm
    rw [hload] at hres1
    simp only [Option.some.injEq] at hres1
    subst hres1
    rcases hcase with ⟨_, hr, _⟩ | ⟨hu, _, hl⟩
    · rw [hret] at hr
      exact absurd hr (by decide)
    · rw [hq] at hu
      exact ⟨m, hq, (anyUnbound_storedIn m q).mp hu, hl⟩

theorem lookup_of_required (m : Module) (h : ∀ s ∈ requiredNames, m.lookup s ≠ none)
    (s : String) (hs : s ∈ requiredNames) : ∃ a, m.lookup s = some a :=
  Option.ne_none_iff_exists'.mp (h s hs)


/-! ## Reload with the same name (C11) -/

theorem storedIn_idem (m : Module) (q : tlmu) : storedIn m (storedIn m q) = storedIn m q := rfl

theorem resolveSource_stable (w : World) (files1 : Files) (path lib src : String)
    (hslash : '/' ∈ lib.data) (hne : src ≠ lib)
    (hsame : ∀ p, p ≠ lib → files1 p = w.files p)
    (hres : resolveSource w path = some src) (hsrc : (w.files src).isSome) :
    resolveSource { w with files := files1 } path = some src := by
  unfold resolveSource at hres ⊢
  by_cases h : (w.files path).isSome = true
  · rw [if_pos h] at hres
    simp only [Option.some.injEq] at hres
    subst hres
    simp only
    rw [hsame path hne, if_pos h]
  · rw [if_neg h] at hres
    have hnone : w.files path = none := by
      cases hp : w.files path with
      | none => rfl
      | some c => rw [hp] at h; exact absurd rfl h
    have hns : '/' ∉ path.data := by
      intro hs
      unfold dlopen at hres
      rw [if_pos hs, hnone] at hres
      simp at hres
    have hpl : path ≠ lib := by
      intro hp
      rw [hp] at hns
      exact hns hslash
    simp only
    rw [hsame path hpl, if_neg h]
    unfold dlopen at hres ⊢
    rw [if_neg hns] at hres ⊢
    exact hres

theorem copylib_again (w : World) (fuel : Nat) (path lib src : String) (content : List Nat)
    (hreads : ∀ n, w.reads n = ReadOutcome.full) (hwrites : ∀ n, w.writes n = WriteOutcome.full)
    (hres : resolveSource w path = some src) (hsrc : w.files src = some content)
    (hrd : w.canRead src = true) (hwr : w.canWrite lib = true) (hne : src ≠ lib)
    (hslash : '/' ∈ lib.data) (hfuel : content.length + 2 ≤ fuel) :
    ∃ files1 files2, copylib w fuel path lib = some (CopyExit.copied, files1)
      ∧ copylib { w with files := files1 } fuel path lib = some (CopyExit.copied, files2)
      ∧ (∀ p, p ≠ lib → files1 p = w.files p)
      ∧ (∀ p, files2 p = files1 p) := by
  obtain ⟨files1, h1, h2, h3⟩ :=
    copylib_full w fuel path lib src content hreads hwrites hres hsrc hrd hwr hne hfuel
  have hres2 := resolveSource_stable w files1 path lib src hslash hne h3 hres (by rw [hsrc]; rfl)
  have hsrc2 : ({ w with files := files1 } : World).files src = some content := by
    simp only
    rw [h3 src hne, hsrc]
  obtain ⟨files2, k1, k2, k3⟩ :=
    copylib_full { w with files := files1 } fuel path lib src content hreads hwrites hres2 hsrc2
      hrd hwr hne hfuel
  refine ⟨files1, files2, h1, k1, h3, ?_⟩
  intro p
  by_cases hp : p = lib
  · subst hp
    rw [k2]
    simp only
    rw [h2]
    simp
  · rw [k3 p hp]

/-- C11: the private copy path is `.tlmu/<basename>-<name>`, the same for every
specifier with that basename, and `tlmu_load` keeps the name of the instance;
when the source is a readable file other than the private copy, the copy can
be written and every `read` and `write` succeeds in full, a first `tlmu_load`
and a second one on the files and the record the first one left both return,
they write no path but the private copy path, the second leaves the files and
the record as the first left them and returns the same value, so `0` after
`0`. -/
theorem c11_reload_same_path (w : World) (fuel : Nat) (q : tlmu) (soname src : String)
    (content : List Nat)
    (hreads : ∀ n, w.reads n = ReadOutcome.full) (hwrites : ∀ n, w.writes n = WriteOutcome.full)
    (hres : resolveSource w soname = some src) (hsrc : w.files src = some content)
    (hrd : w.canRead src = true) (hwr : w.canWrite (libname soname q.name) = true)
    (hne : src ≠ libname soname q.name) (hfuel : content.length + 2 ≤ fuel) :
    ∃ res1 res2, tlmu_load w fuel q soname = some res1
      ∧ tlmu_load { w with files := res1.files } fuel res1.q soname = some res2
      ∧ libname soname res1.q.name = libname soname q.name
      ∧ (∀ s, basename s = basename soname →
          libname s q.name = ".tlmu/" ++ basename soname ++ "-" ++ q.name)
      ∧ (∀ p, p ≠ libname soname q.name → res1.files p = w.files p)
      ∧ (∀ p, res2.files p = res1.files p)
      ∧ res2.q = res1.q
      ∧ res2.ret = res1.ret
      ∧ (res1.ret = 0 → res2.ret = 0) := by
  obtain ⟨files1, files2, hc1, hc2, hf1, hf2⟩ :=
    copylib_again w fuel soname (libname soname q.name) src content hreads hwrites hres hsrc
      hrd hwr hne (libname_has_slash soname q.name) hfuel
  have hpath : ∀ s, basename s = basename soname →
      libname s q.name = ".tlmu/" ++ basename soname ++ "-" ++ q.name := by
    intro s hs
    unfold libname
    rw [hs]
  have hopen : dlopen { w with files := files1 } files2 (libname soname q.name)
      = dlopen w files1 (libname soname q.name) := by
    rw [dlopen_libname, dlopen_libname, hf2]
  cases hd : dlopen w files1 (libname soname q.name) with
  | none =>
    obtain ⟨res1, hl1, hr1, hq1⟩ := tlmu_load_not_opened w fuel q soname _ files1 hc1 hd
    have hn1 : res1.q.name = q.name := by rw [hq1]
    have hfl : res1.files = files1 := by
      obtain ⟨e, fs, hc, hf, _⟩ := tlmu_load_cases w fuel q soname res1 hl1
      rw [hc1] at hc
      simp only [Option.some.injEq, Prod.mk.injEq] at hc
      rw [hf, hc.2]
    rw [hd] at hopen
    obtain ⟨res2, hl2, hr2, hq2⟩ := tlmu_load_not_opened { w with files := files1 } fuel res1.q
      soname _ files2 (by rw [hn1]; exact hc2) (by rw [hn1]; exact hopen)
    have hfl2 : res2.files = files2 := by
      obtain ⟨e, fs, hc, hf, _⟩ := tlmu_load_cases _ fuel res1.q soname res2 hl2
      rw [hn1, hc2] at hc
      simp only [Option.some.injEq, Prod.mk.injEq] at hc
      rw [hf, hc.2]
    refine ⟨res1, res2, hl1, by rw [hfl]; exact hl2, by rw [hn1], hpath, ?_, ?_, ?_, ?_, ?_⟩
    · intro p hp
      rw [hfl]
      exact hf1 p hp
    · intro p
      rw [hfl, hfl2]
      exact hf2 p
    · rw [hq2, hq1]
    · rw [hr1, hr2]
    · intro h
      rw [hr1] at h
      exact absurd h (by decide)
  | some m =>
    obtain ⟨res1, hl1, hq1, hfl, hcase1⟩ := tlmu_load_opened w fuel q soname _ files1 m hc1 hd
    have hn1 : res1.q.name = q.name := by rw [hq1]; rfl
    rw [hd] at hopen
    obtain ⟨res2, hl2, hq2, hfl2, hcase2⟩ := tlmu_load_opened { w with files := files1 } fuel
      res1.q soname _ files2 m (by rw [hn1]; exact hc2) (by rw [hn1]; exact hopen)
    have hqq : res2.q = res1.q := by rw [hq2, hq1, storedIn_idem]
    have hret : res2.ret = res1.ret := by
      rcases hcase1 with ⟨hu1, hr1, _⟩ | ⟨hu1, hr1, _⟩ <;>
        rcases hcase2 with ⟨hu2, hr2, _⟩ | ⟨hu2, hr2, _⟩
      · rw [hr1, hr2]
      · rw [hqq, hu1] at hu2
        exact absurd hu2 (by decide)
      · rw [hqq, hu1] at hu2
        exact absurd hu2 (by decide)
      · rw [hr1, hr2]
    refine ⟨res1, res2, hl1, by rw [hfl]; exact hl2, by rw [hn1], hpath, ?_, ?_, hqq, hret, ?_⟩
    · intro p hp
      rw [hfl]
      exact hf1 p hp
    · intro p
      rw [hfl, hfl2]
      exact hf2 p
    · intro h
      rw [hret, h]

/-- Witness of C11: the stub module loaded twice for instance `cpu0`. -/
theorem c11_reload_same_path_witness :
    (∀ n, (stubWorld stubFiles stubModule).reads n = ReadOutcome.full)
    ∧ (∀ n, (stubWorld stubFiles stubModule).writes n = WriteOutcome.full)
    ∧ resolveSource (stubWorld stubFiles stubModule) "lib/x.so" = some "lib/x.so"
    ∧ (stubWorld stubFiles stubModule).files "lib/x.so" = some [127]
    ∧ (stubWorld stubFiles stubModule).canRead "lib/x.so" = true
    ∧ (stubWorld stubFiles stubModule).canWrite (libname "lib/x.so" initCpu0.name) = true
    ∧ "lib/x.so" ≠ libname "lib/x.so" initCpu0.name
    ∧ [127].length + 2 ≤ 5
    ∧ ∃ res1 res2, tlmu_load (stubWorld stubFiles stubModule) 5 initCpu0 "lib/x.so" = some res1
      ∧ tlmu_load { stubWorld stubFiles stubModule with files := res1.files } 5 res1.q "lib/x.so"
          = some res2
      ∧ libname "lib/x.so" res1.q.name = libname "lib/x.so" initCpu0.name
      ∧ (∀ s, basename s = basename "lib/x.so" →
          libname s initCpu0.name = ".tlmu/" ++ basename "lib/x.so" ++ "-" ++ initCpu0.name)
      ∧ (∀ p, p ≠ libname "lib/x.so" initCpu0.name →
          res1.files p = (stubWorld stubFiles stubModule).files p)
      ∧ (∀ p, res2.files p = res1.files p)
      ∧ res2.q = res1.q
      ∧ res2.ret = res1.ret
      ∧ (res1.ret = 0 → res2.ret = 0) :=
  ⟨fun _ => rfl, fun _ => rfl, by decide, by decide, rfl, rfl, by decide, by decide,
    c11_reload_same_path (stubWorld stubFiles stubModule) 5 initCpu0 "lib/x.so" "lib/x.so" [127]
      (fun _ => rfl) (fun _ => rfl) (by decide) (by decide) rfl rfl (by decide) (by decide)⟩

/-- The second load of the stub module for instance `cpu0`, on the files and
the record the first load left, evaluated: it returns `0` and leaves the
private copy and the record as they were. -/
theorem reload_evaluated :
    (tlmu_load { stubWorld stubFiles stubModule with files := stubCopied } 5 loadedCpu0
        "lib/x.so").map (fun r => (r.ret, r.q, r.files ".tlmu/x.so-cpu0"))
      = some (0, loadedCpu0, some [127]) := by
  decide

/-! ## Log file name (C12) -/

theorem setLogCalls_flatMap (m : Module) (names : List String) :
    setLogCalls (names.flatMap (symEvents m)) = [] := by
  induction names with
  | nil => rfl
  | cons s names ih =>
    rw [List.flatMap_cons]
    unfold setLogCalls at ih ⊢
    rw [List.filterMap_append, ih]
    unfold symEvents
    split <;> simp [List.filterMap_cons]

/-- C12: `tlmu_load` calls the bound log-filename setter exactly once when it
returns `0`, the function called being `qemu_set_log_filename` of the module
and the path the private copy path followed by `.log`, that is
`.tlmu/<basename>-<name>.log`; and it does not call it when it returns
non-zero. -/
theorem c12_log_filename_once (w : World) (fuel : Nat) (q : tlmu) (soname : String)
    (res : LoadResult) (hload : tlmu_load w fuel q soname = some res) :
    (res.ret = 0 →
      ∃ m fn, res.q.dl_handle = some m ∧ m.lookup "qemu_set_log_filename" = some fn
        ∧ setLogCalls res.log = [(fn, libname soname q.name ++ ".log")]
        ∧ libname soname q.name ++ ".log"
            = ".tlmu/" ++ basename soname ++ "-" ++ q.name ++ ".log")
    ∧ (res.ret ≠ 0 → setLogCalls res.log = []) := by
  constructor
  · intro hret
    obtain ⟨m, hq, hall, hl⟩ := tlmu_load_ok w fuel q soname res hload hret
    obtain ⟨fn, hfn⟩ := lookup_of_required m hall "qemu_set_log_filename" (by decide)
    refine ⟨m, fn, by rw [hq]; rfl, hfn, ?_, rfl⟩
    have hf : res.q.tlm_set_log_filename = some fn := by rw [hq]; exact hfn
    rw [hl]
    unfold tlmu_set_log_filename
    rw [hf]
    simp only
    unfold setLogCalls
    rw [List.filterMap_append]
    have := setLogCalls_flatMap m bindOrder
    unfold setLogCalls at this
    rw [this]
    rfl
  · intro hret
    obtain ⟨e, files, _, _, hcase⟩ := tlmu_load_cases w fuel q soname res hload
    rcases hcase with ⟨_, _, _, hl⟩ | ⟨m, _, _, ⟨_, _, hl⟩ | ⟨_, hr, _⟩⟩
    · rw [hl]
      rfl
    · rw [hl, bindSymbols_snd, List.nil_append]
      unfold setLogCalls
      rw [List.filterMap_append]
      have := setLogCalls_flatMap m bindOrder
      unfold setLogCalls at this
      rw [this]
      rfl
    · exact absurd hr hret

/-- Witness of C12: the load of the stub module into `initCpu0`. -/
theorem c12_log_filename_once_witness :
    tlmu_load (stubWorld stubFiles stubModule) 5 initCpu0 "lib/x.so" = some stubLoad
    ∧ (stubLoad.ret = 0 →
      ∃ m fn, stubLoad.q.dl_handle = some m ∧ m.lookup "qemu_set_log_filename" = some fn
        ∧ setLogCalls stubLoad.log = [(fn, libname "lib/x.so" initCpu0.name ++ ".log")]
        ∧ libname "lib/x.so" initCpu0.name ++ ".log"
            = ".tlmu/" ++ basename "lib/x.so" ++ "-" ++ initCpu0.name ++ ".log")
    ∧ (stubLoad.ret ≠ 0 → setLogCalls stubLoad.log = []) :=
  ⟨rfl, c12_log_filename_once (stubWorld stubFiles stubModule) 5 initCpu0 "lib/x.so" stubLoad rfl⟩

/-- The log-filename setter in the two fixture loads: called once with
`.tlmu/x.so-cpu0.log` by the load that returns `0`, not called by the load
that returns `1`. -/
theorem log_filename_calls_evaluated :
    setLogCalls stubLoad.log = [(2, ".tlmu/x.so-cpu0.log")]
    ∧ setLogCalls (failedLoad "tlm_sync").log = [] := by
  decide


/-! ## Bus bridge (C13) -/

theorem loopback_read_back (mem : Nat → Nat) (f : Nat) (addr : Nat) (data buf : List Nat) :
    (loopback (BridgeCall.bus_access f 0 addr buf data.length)
        (loopback (BridgeCall.bus_access f 1 addr data data.length) mem).2).1.data = data := by
  simp only [loopback, ne_eq, one_ne_zero, not_false_eq_true, if_true, not_true_eq_false,
    if_false, Int.toNat_ofNat, List.take_length]
  apply List.ext_getElem
  · simp
  · intro i h1 h2
    simp only [List.length_map, List.length_range] at h1
    simp [h1, h2]

/-- C13: on a loaded instance, `tlmu_bus_access` makes one call, of the function
`tlm_bus_access` of the module, with `rw`, `addr`, `data` and `len` as given,
and returns the status and the buffer that call gave; `tlmu_bus_access_dbg`
makes one call of `tlm_bus_access_dbg` with the same four values; and with the
loopback module a write of the bytes `data` followed by a read of the same
address and length fills the buffer with `data`. -/
theorem c13_bus_access_pass_through (w : World) (fuel : Nat) (q : tlmu) (soname : String)
    (res : LoadResult) (hload : tlmu_load w fuel q soname = some res) (hret : res.ret = 0) :
    ∃ m f g, res.q.dl_handle = some m ∧ m.lookup "tlm_bus_access" = some f
      ∧ m.lookup "tlm_bus_access_dbg" = some g
      ∧ (∀ {σ : Type} (code : ModuleCode σ) (rw : Int) (addr : Nat) (data : List Nat)
            (len : Int) (s : σ),
          tlmu_bus_access code res.q rw addr data len s
              = some { ret := (code (BridgeCall.bus_access f rw addr data len) s).1.status,
                       data := (code (BridgeCall.bus_access f rw addr data len) s).1.data,
                       state := (code (BridgeCall.bus_access f rw addr data len) s).2,
                       calls := [BridgeCall.bus_access f rw addr data len] }
          ∧ tlmu_bus_access_dbg code res.q rw addr data len s
              = some { ret := 0,
                       data := (code (BridgeCall.bus_access_dbg g rw addr data len) s).1.data,
                       state := (code (BridgeCall.bus_access_dbg g rw addr data len) s).2,
                       calls := [BridgeCall.bus_access_dbg g rw addr data len] })
      ∧ (∀ (mem : Nat → Nat) (addr : Nat) (data buf : List Nat),
          ∃ r1 r2, tlmu_bus_access loopback res.q 1 addr data data.length mem = some r1
            ∧ tlmu_bus_access loopback res.q 0 addr buf data.length r1.state = some r2
            ∧ r2.data = data) := by
  obtain ⟨m, hq, hall, _⟩ := tlmu_load_ok w fuel q soname res hload hret
  obtain ⟨f, hf⟩ := lookup_of_required m hall "tlm_bus_access" (by decide)
  obtain ⟨g, hg⟩ := lookup_of_required m hall "tlm_bus_access_dbg" (by decide)
  have hpf : res.q.tlm_bus_access = some f := by rw [hq]; exact hf
  have hpg : res.q.tlm_bus_access_dbg = some g := by rw [hq]; exact hg
  have hgen : ∀ {σ : Type} (code : ModuleCode σ) (rw : Int) (addr : Nat) (data : List Nat)
      (len : Int) (s : σ),
      tlmu_bus_access code res.q rw addr data len s
          = some { ret := (code (BridgeCall.bus_access f rw addr data len) s).1.status,
                   data := (code (BridgeCall.bus_access f rw addr data len) s).1.data,
                   state := (code (BridgeCall.bus_access f rw addr data len) s).2,
                   calls := [BridgeCall.bus_access f rw addr data len] }
      ∧ tlmu_bus_access_dbg code res.q rw addr data len s
          = some { ret := 0,
                   data := (code (BridgeCall.bus_access_dbg g rw addr data len) s).1.data,
                   state := (code (BridgeCall.bus_access_dbg g rw addr data len) s).2,
                   calls := [BridgeCall.bus_access_dbg g rw addr data len] } := by
    intro σ code rw addr data len s
    unfold tlmu_bus_access tlmu_bus_access_dbg
    rw [hpf, hpg]
    exact ⟨rfl, rfl⟩
  refine ⟨m, f, g, by rw [hq]; rfl, hf, hg, hgen, ?_⟩
  intro mem addr data buf
  exact ⟨_, _, (hgen loopback 1 addr data data.length mem).1,
    (hgen loopback 0 addr buf data.length _).1, loopback_read_back mem f addr data buf⟩

/-- Witness of C13: the stub module loaded into `initCpu0`. -/
theorem c13_bus_access_pass_through_witness :
    tlmu_load (stubWorld stubFiles stubModule) 5 initCpu0 "lib/x.so" = some stubLoad
    ∧ stubLoad.ret = 0
    ∧ ∃ m f g, stubLoad.q.dl_handle = some m ∧ m.lookup "tlm_bus_access" = some f
      ∧ m.lookup "tlm_bus_access_dbg" = some g
      ∧ (∀ {σ : Type} (code : ModuleCode σ) (rw : Int) (addr : Nat) (data : List Nat)
            (len : Int) (s : σ),
          tlmu_bus_access code stubLoad.q rw addr data len s
              = some { ret := (code (BridgeCall.bus_access f rw addr data len) s).1.status,
                       data := (code (BridgeCall.bus_access f rw addr data len) s).1.data,
                       state := (code (BridgeCall.bus_access f rw addr data len) s).2,
                       calls := [BridgeCall.bus_access f rw addr data len] }
          ∧ tlmu_bus_access_dbg code stubLoad.q rw addr data len s
              = some { ret := 0,
                       data := (code (BridgeCall.bus_access_dbg g rw addr data len) s).1.data,
                       state := (code (BridgeCall.bus_access_dbg g rw addr data len) s).2,
                       calls := [BridgeCall.bus_access_dbg g rw addr data len] })
      ∧ (∀ (mem : Nat → Nat) (addr : Nat) (data buf : List Nat),
          ∃ r1 r2, tlmu_bus_access loopback stubLoad.q 1 addr data data.length mem = some r1
            ∧ tlmu_bus_access loopback stubLoad.q 0 addr buf data.length r1.state = some r2
            ∧ r2.data = data) :=
  ⟨rfl, rfl, c13_bus_access_pass_through (stubWorld stubFiles stubModule) 5 initCpu0 "lib/x.so"
    stubLoad rfl rfl⟩

/-- A write of three bytes at address `64` through the loaded stub record and
the loopback module, then a read of three bytes there, evaluated. -/
theorem loopback_round_trip_evaluated :
    ((tlmu_bus_access loopback loadedCpu0 1 64 [7, 8, 9] 3 (fun _ => 0)).bind fun r1 =>
      (tlmu_bus_access loopback loadedCpu0 0 64 [0, 0, 0] 3 r1.state).map fun r2 =>
        (r1.ret, r1.calls, r2.ret, r2.data, r2.calls))
      = some (1, [BridgeCall.bus_access 13 1 64 [7, 8, 9] 3], 1, [7, 8, 9],
          [BridgeCall.bus_access 13 0 64 [0, 0, 0] 3]) := by
  decide


/-! ## Shutdown and start (C14, C15) -/

/-- C14, counterexample: on the record that `tlmu_init` leaves, the field
`qemu_system_shutdown_request` is `NULL` and `tlmu_exit` calls through it. -/
theorem c14_exit_before_load_null :
    tlmu_init 4 "cpu0" = Outcome.ok initCpu0
    ∧ initCpu0.qemu_system_shutdown_request = none
    ∧ tlmu_exit countingCode initCpu0 0 = none := by
  decide

theorem exitTimes_bound {σ : Type} (code : ModuleCode σ) (t : tlmu) (fn : Nat)
    (h : t.qemu_system_shutdown_request = some fn) :
    ∀ (n : Nat) (s : σ), ∃ s1, exitTimes code n t s
      = some (t, s1, List.replicate n (BridgeCall.shutdown_request fn)) := by
  intro n
  induction n with
  | zero =>
    intro s
    exact ⟨s, rfl⟩
  | succ n ih =>
    intro s
    obtain ⟨s1, h1⟩ := ih (code (BridgeCall.shutdown_request fn) s).2
    refine ⟨s1, ?_⟩
    rw [exitTimes]
    unfold tlmu_exit
    rw [h]
    simp only
    rw [h1]
    simp [List.replicate_succ]

/-- C14, amended: when `tlmu_load` returned `0`, on the record it left, with
the argument vector changed or not by appends, `tlmu_exit` called any number
of times calls the function `qemu_system_shutdown_request` of the module each
time, never a `NULL` pointer, and leaves every field of the record as it
was. -/
theorem c14_exit_after_load (w : World) (fuel : Nat) (q : tlmu) (soname : String)
    (res : LoadResult) (t : tlmu)
    (hload : tlmu_load w fuel q soname = some res) (hret : res.ret = 0)
    (ht : t = { res.q with argv := t.argv }) :
    ∃ m fn, t.dl_handle = some m ∧ m.lookup "qemu_system_shutdown_request" = some fn
      ∧ ∀ {σ : Type} (code : ModuleCode σ) (n : Nat) (s : σ),
          ∃ s1, exitTimes code n t s
            = some (t, s1, List.replicate n (BridgeCall.shutdown_request fn)) := by
  obtain ⟨m, hq, hall, _⟩ := tlmu_load_ok w fuel q soname res hload hret
  obtain ⟨fn, hfn⟩ := lookup_of_required m hall "qemu_system_shutdown_request" (by decide)
  have hp : t.qemu_system_shutdown_request = some fn := by rw [ht, hq]; exact hfn
  refine ⟨m, fn, by rw [ht, hq]; rfl, hfn, ?_⟩
  intro σ code n s
  exact exitTimes_bound code t fn hp n s

/-- Witness of C14 (amended): the stub module loaded into `initCpu0`. -/
theorem c14_exit_after_load_witness :
    tlmu_load (stubWorld stubFiles stubModule) 5 initCpu0 "lib/x.so" = some stubLoad
    ∧ stubLoad.ret = 0
    ∧ loadedCpu0 = { stubLoad.q with argv := loadedCpu0.argv }
    ∧ ∃ m fn, loadedCpu0.dl_handle = some m ∧ m.lookup "qemu_system_shutdown_request" = some fn
      ∧ ∀ {σ : Type} (code : ModuleCode σ) (n : Nat) (s : σ),
          ∃ s1, exitTimes code n loadedCpu0 s
            = some (loadedCpu0, s1, List.replicate n (BridgeCall.shutdown_request fn)) :=
  ⟨rfl, rfl, rfl, c14_exit_after_load (stubWorld stubFiles stubModule) 5 initCpu0 "lib/x.so"
    stubLoad loadedCpu0 rfl rfl rfl⟩

/-- Two calls of `tlmu_exit` on the loaded stub record, evaluated. -/
theorem exit_twice_evaluated :
    exitTimes countingCode 2 loadedCpu0 0
      = some (loadedCpu0, 2, [BridgeCall.shutdown_request 17, BridgeCall.shutdown_request 17]) := by
  decide


/-- C15, counterexample: the stub module is loaded and no setter is called, so
the cells of the three inbound callbacks hold nothing; `tlmu_run` calls the
entry point of the module. -/
theorem c15_run_without_callbacks :
    (tlmu_load (stubWorld stubFiles stubModule) 5 initCpu0 "lib/x.so").map
        (fun res => (res.ret, res.q.tlm_bus_access_cb, res.q.tlm_bus_access_dbg_cb,
          res.q.tlm_get_dmi_ptr_cb, tlmu_run res.q))
      = some (0, some 11, some 12, some 15, RunResult.called
          { fn := 1, arg0 := 0, arg1 := 1, arg2 := 1, argc := 3,
            argv := [some "TLMu", some "-qmp", some "null", none], envp := none })
    ∧ noCells 11 = none ∧ noCells 12 = none ∧ noCells 15 = none := by
  decide

/-- C15, amended: `tlmu_run` reads no callback cell: when `tlmu_load` returned
`0` and the argument vector has its sentinel at index `n`, `tlmu_run` calls the
entry point `vl_main` of the module with `(0, 1, 1, n, argv, NULL)`, whatever
the cells of the module hold. -/
theorem c15_run_ignores_callbacks (w : World) (fuel : Nat) (q : tlmu) (soname : String)
    (res : LoadResult) (n : Nat)
    (hload : tlmu_load w fuel q soname = some res) (hret : res.ret = 0)
    (hargv : scanNull q.argv = some n) :
    ∃ m f, res.q.dl_handle = some m ∧ m.lookup "vl_main" = some f
      ∧ tlmu_run res.q = RunResult.called
          { fn := f, arg0 := 0, arg1 := 1, arg2 := 1, argc := n, argv := q.argv,
            envp := none } := by
  obtain ⟨m, hq, hall, _⟩ := tlmu_load_ok w fuel q soname res hload hret
  obtain ⟨f, hf⟩ := lookup_of_required m hall "vl_main" (by decide)
  have hp : res.q.main = some f := by rw [hq]; exact hf
  have ha : res.q.argv = q.argv := by rw [hq]; rfl
  refine ⟨m, f, by rw [hq]; rfl, hf, ?_⟩
  unfold tlmu_run
  rw [ha, hargv, hp]

/-- Witness of C15 (amended): the stub module loaded into `initCpu0`. -/
theorem c15_run_ignores_callbacks_witness :
    tlmu_load (stubWorld stubFiles stubModule) 5 initCpu0 "lib/x.so" = some stubLoad
    ∧ stubLoad.ret = 0
    ∧ scanNull initCpu0.argv = some 3
    ∧ ∃ m f, stubLoad.q.dl_handle = some m ∧ m.lookup "vl_main" = some f
      ∧ tlmu_run stubLoad.q = RunResult.called
          { fn := f, arg0 := 0, arg1 := 1, arg2 := 1, argc := 3, argv := initCpu0.argv,
            envp := none } :=
  ⟨rfl, rfl, rfl, c15_run_ignores_callbacks (stubWorld stubFiles stubModule) 5 initCpu0
    "lib/x.so" stubLoad 3 rfl rfl rfl⟩

/-! ## Setters of the data cells (C16) -/


theorem writesOnly_store (mem : Cells) (a : Nat) (v : Value) :
    WritesOnly mem (mem.store a v) [(a, v)] := by
  constructor
  · intro p hp
    simp only [List.mem_singleton] at hp
    subst hp
    simp [Cells.store]
  · intro x hx
    have := hx (a, v) (by simp)
    simp only [ne_eq] at this
    simp [Cells.store, this]

theorem writesOnly_store_two (mem : Cells) (a b : Nat) (va vb : Value) (hne : a ≠ b) :
    WritesOnly mem ((mem.store a va).store b vb) [(a, va), (b, vb)] := by
  constructor
  · intro p hp
    simp only [List.mem_cons, List.mem_singleton, List.not_mem_nil, or_false] at hp
    rcases hp with rfl | rfl
    · simp [Cells.store, hne]
    · simp [Cells.store]
  · intro x hx
    have h1 := hx (a, va) (by simp)
    have h2 := hx (b, vb) (by simp)
    simp only [ne_eq] at h1 h2
    simp [Cells.store, h1, h2]

/-- C16: on a loaded instance whose nine data cells are pairwise distinct, each
setter returns with the record unchanged and with the memory of the module
changed in its own cell only, which holds the argument: `tlm_opaque`,
`tlm_bus_access_cb`, `tlm_bus_access_dbg_cb`, `tlm_get_dmi_ptr_cb`, `tlm_sync`,
`tlm_sync_period_ns`, `tlm_boot_state` for the seven setters of one value, and
`tlm_image_load_base` with `tlm_image_load_size` for
`tlmu_set_image_load_params`. -/
theorem c16_setters_write_own_cell (w : World) (fuel : Nat) (q : tlmu) (soname : String)
    (res : LoadResult) (hload : tlmu_load w fuel q soname = some res) (hret : res.ret = 0)
    (hdist : (dataCells res.q).Nodup) :
    ∃ m, res.q.dl_handle = some m
      ∧ (∃ a, m.lookup "tlm_opaque" = some a ∧ ∀ (o : Ptr) (mem : Cells),
          ∃ mem1, tlmu_set_opaque res.q o mem = some (res.q, mem1)
            ∧ WritesOnly mem mem1 [(a, Value.ptr o)])
      ∧ (∃ a, m.lookup "tlm_bus_access_cb" = some a ∧ ∀ (cb : Ptr) (mem : Cells),
          ∃ mem1, tlmu_set_bus_access_cb res.q cb mem = some (res.q, mem1)
            ∧ WritesOnly mem mem1 [(a, Value.ptr cb)])
      ∧ (∃ a, m.lookup "tlm_bus_access_dbg_cb" = some a ∧ ∀ (cb : Ptr) (mem : Cells),
          ∃ mem1, tlmu_set_bus_access_dbg_cb res.q cb mem = some (res.q, mem1)
            ∧ WritesOnly mem mem1 [(a, Value.ptr cb)])
      ∧ (∃ a, m.lookup "tlm_get_dmi_ptr_cb" = some a ∧ ∀ (cb : Ptr) (mem : Cells),
          ∃ mem1, tlmu_set_bus_get_dmi_ptr_cb res.q cb mem = some (res.q, mem1)
            ∧ WritesOnly mem mem1 [(a, Value.ptr cb)])
      ∧ (∃ a, m.lookup "tlm_sync" = some a ∧ ∀ (cb : Ptr) (mem : Cells),
          ∃ mem1, tlmu_set_sync_cb res.q cb mem = some (res.q, mem1)
            ∧ WritesOnly mem mem1 [(a, Value.ptr cb)])
      ∧ (∃ a, m.lookup "tlm_sync_period_ns" = some a ∧ ∀ (period_ns : Nat) (mem : Cells),
          ∃ mem1, tlmu_set_sync_period_ns res.q period_ns mem = some (res.q, mem1)
            ∧ WritesOnly mem mem1 [(a, Value.u64 period_ns)])
      ∧ (∃ a, m.lookup "tlm_boot_state" = some a ∧ ∀ (v : Int) (mem : Cells),
          ∃ mem1, tlmu_set_boot_state res.q v mem = some (res.q, mem1)
            ∧ WritesOnly mem mem1 [(a, Value.int v)])
      ∧ (∃ b s, m.lookup "tlm_image_load_base" = some b
          ∧ m.lookup "tlm_image_load_size" = some s ∧ ∀ (base size : Nat) (mem : Cells),
          ∃ mem1, tlmu_set_image_load_params res.q base size mem = some (res.q, mem1)
            ∧ WritesOnly mem mem1 [(b, Value.u64 base), (s, Value.u64 size)]) := by
  obtain ⟨m, hq, hall, _⟩ := tlmu_load_ok w fuel q soname res hload hret
  obtain ⟨a1, h1⟩ := lookup_of_required m hall "tlm_opaque" (by decide)
  obtain ⟨a2, h2⟩ := lookup_of_required m hall "tlm_bus_access_cb" (by decide)
  obtain ⟨a3, h3⟩ := lookup_of_required m hall "tlm_bus_access_dbg_cb" (by decide)
  obtain ⟨a4, h4⟩ := lookup_of_required m hall "tlm_get_dmi_ptr_cb" (by decide)
  obtain ⟨a5, h5⟩ := lookup_of_required m hall "tlm_sync" (by decide)
  obtain ⟨a6, h6⟩ := lookup_of_required m hall "tlm_sync_period_ns" (by decide)
  obtain ⟨a7, h7⟩ := lookup_of_required m hall "tlm_boot_state" (by decide)
  obtain ⟨a8, h8⟩ := lookup_of_required m hall "tlm_image_load_base" (by decide)
  obtain ⟨a9, h9⟩ := lookup_of_required m hall "tlm_image_load_size" (by decide)
  have p1 : res.q.tlm_opaque = some a1 := by rw [hq]; exact h1
  have p2 : res.q.tlm_bus_access_cb = some a2 := by rw [hq]; exact h2
  have p3 : res.q.tlm_bus_access_dbg_cb = some a3 := by rw [hq]; exact h3
  have p4 : res.q.tlm_get_dmi_ptr_cb = some a4 := by rw [hq]; exact h4
  have p5 : res.q.tlm_sync = some a5 := by rw [hq]; exact h5
  have p6 : res.q.tlm_sync_period_ns = some a6 := by rw [hq]; exact h6
  have p7 : res.q.tlm_boot_state = some a7 := by rw [hq]; exact h7
  have p8 : res.q.tlm_image_load_base = some a8 := by rw [hq]; exact h8
  have p9 : res.q.tlm_image_load_size = some a9 := by rw [hq]; exact h9
  have hne : a8 ≠ a9 := by
    intro h
    unfold dataCells at hdist
    rw [p8, p9, h] at hdist
    simp at hdist
  refine ⟨m, by rw [hq]; rfl, ⟨a1, h1, ?_⟩, ⟨a2, h2, ?_⟩, ⟨a3, h3, ?_⟩, ⟨a4, h4, ?_⟩,
    ⟨a5, h5, ?_⟩, ⟨a6, h6, ?_⟩, ⟨a7, h7, ?_⟩, ⟨a8, a9, h8, h9, ?_⟩⟩
  · intro o mem
    exact ⟨_, by unfold tlmu_set_opaque; rw [p1], writesOnly_store mem a1 _⟩
  · intro cb mem
    exact ⟨_, by unfold tlmu_set_bus_access_cb; rw [p2], writesOnly_store mem a2 _⟩
  · intro cb mem
    exact ⟨_, by unfold tlmu_set_bus_access_dbg_cb; rw [p3], writesOnly_store mem a3 _⟩
  · intro cb mem
    exact ⟨_, by unfold tlmu_set_bus_get_dmi_ptr_cb; rw [p4], writesOnly_store mem a4 _⟩
  · intro cb mem
    exact ⟨_, by unfold tlmu_set_sync_cb; rw [p5], writesOnly_store mem a5 _⟩
  · intro period_ns mem
    exact ⟨_, by unfold tlmu_set_sync_period_ns; rw [p6], writesOnly_store mem a6 _⟩
  · intro v mem
    exact ⟨_, by unfold tlmu_set_boot_state; rw [p7], writesOnly_store mem a7 _⟩
  · intro base size mem
    exact ⟨_, by unfold tlmu_set_image_load_params; rw [p8, p9],
      writesOnly_store_two mem a8 a9 _ _ hne⟩

/-- Witness of C16: the stub module loaded into `initCpu0`; its cells are at
the addresses 6, 11, 12, 15, 8, 9, 10, 3 and 4. -/
theorem c16_setters_write_own_cell_witness :
    tlmu_load (stubWorld stubFiles stubModule) 5 initCpu0 "lib/x.so" = some stubLoad
    ∧ stubLoad.ret = 0
    ∧ (dataCells stubLoad.q).Nodup
    ∧ ∃ m, stubLoad.q.dl_handle = some m
      ∧ (∃ a, m.lookup "tlm_opaque" = some a ∧ ∀ (o : Ptr) (mem : Cells),
          ∃ mem1, tlmu_set_opaque stubLoad.q o mem = some (stubLoad.q, mem1)
            ∧ WritesOnly mem mem1 [(a, Value.ptr o)])
      ∧ (∃ a, m.lookup "tlm_bus_access_cb" = some a ∧ ∀ (cb : Ptr) (mem : Cells),
          ∃ mem1, tlmu_set_bus_access_cb stubLoad.q cb mem = some (stubLoad.q, mem1)
            ∧ WritesOnly mem mem1 [(a, Value.ptr cb)])
      ∧ (∃ a, m.lookup "tlm_bus_access_dbg_cb" = some a ∧ ∀ (cb : Ptr) (mem : Cells),
          ∃ mem1, tlmu_set_bus_access_dbg_cb stubLoad.q cb mem = some (stubLoad.q, mem1)
            ∧ WritesOnly mem mem1 [(a, Value.ptr cb)])
      ∧ (∃ a, m.lookup "tlm_get_dmi_ptr_cb" = some a ∧ ∀ (cb : Ptr) (mem : Cells),
          ∃ mem1, tlmu_set_bus_get_dmi_ptr_cb stubLoad.q cb mem = some (stubLoad.q, mem1)
            ∧ WritesOnly mem mem1 [(a, Value.ptr cb)])
      ∧ (∃ a, m.lookup "tlm_sync" = some a ∧ ∀ (cb : Ptr) (mem : Cells),
          ∃ mem1, tlmu_set_sync_cb stubLoad.q cb mem = some (stubLoad.q, mem1)
            ∧ WritesOnly mem mem1 [(a, Value.ptr cb)])
      ∧ (∃ a, m.lookup "tlm_sync_period_ns" = some a ∧ ∀ (period_ns : Nat) (mem : Cells),
          ∃ mem1, tlmu_set_sync_period_ns stubLoad.q period_ns mem = some (stubLoad.q, mem1)
            ∧ WritesOnly mem mem1 [(a, Value.u64 period_ns)])
      ∧ (∃ a, m.lookup "tlm_boot_state" = some a ∧ ∀ (v : Int) (mem : Cells),
          ∃ mem1, tlmu_set_boot_state stubLoad.q v mem = some (stubLoad.q, mem1)
            ∧ WritesOnly mem mem1 [(a, Value.int v)])
      ∧ (∃ b s, m.lookup "tlm_image_load_base" = some b
          ∧ m.lookup "tlm_image_load_size" = some s ∧ ∀ (base size : Nat) (mem : Cells),
          ∃ mem1, tlmu_set_image_load_params stubLoad.q base size mem = some (stubLoad.q, mem1)
            ∧ WritesOnly mem mem1 [(b, Value.u64 base), (s, Value.u64 size)]) :=
  ⟨rfl, rfl, by decide, c16_setters_write_own_cell (stubWorld stubFiles stubModule) 5 initCpu0
    "lib/x.so" stubLoad rfl rfl (by decide)⟩

/-- The setter of the image placement on the loaded stub record, evaluated on
empty memory: base at address 3, size at address 4, nothing at address 5. -/
theorem set_image_load_params_evaluated :
    (tlmu_set_image_load_params loadedCpu0 4096 512 noCells).map
        (fun r => (r.1, r.2 3, r.2 4, r.2 5))
      = some (loadedCpu0, some (Value.u64 4096), some (Value.u64 512), none) := by
  decide

/-! ## Mapping of RAM (C17) -/

/-- C17: on a loaded instance `tlmu_map_ram` and `tlmu_map_ram_nosync` each
make one call, of the function `tlm_map_ram` of the module, with `name`,
`addr`, `size` and `rw` as given; the fifth argument is `0` for the first and
`1` for the second. -/
theorem c17_map_ram_sync_flag (w : World) (fuel : Nat) (q : tlmu) (soname : String)
    (res : LoadResult) (hload : tlmu_load w fuel q soname = some res) (hret : res.ret = 0) :
    ∃ m f, res.q.dl_handle = some m ∧ m.lookup "tlm_map_ram" = some f
      ∧ ∀ {σ : Type} (code : ModuleCode σ) (name : String) (addr size : Nat) (rw : Int) (s : σ),
          tlmu_map_ram code res.q name addr size rw s
              = some ((code (BridgeCall.map_ram f name addr size rw 0) s).2,
                      [BridgeCall.map_ram f name addr size rw 0])
          ∧ tlmu_map_ram_nosync code res.q name addr size rw s
              = some ((code (BridgeCall.map_ram f name addr size rw 1) s).2,
                      [BridgeCall.map_ram f name addr size rw 1]) := by
  obtain ⟨m, hq, hall, _⟩ := tlmu_load_ok w fuel q soname res hload hret
  obtain ⟨f, hf⟩ := lookup_of_required m hall "tlm_map_ram" (by decide)
  have hp : res.q.tlm_map_ram = some f := by rw [hq]; exact hf
  refine ⟨m, f, by rw [hq]; rfl, hf, ?_⟩
  intro σ code name addr size rw s
  unfold tlmu_map_ram tlmu_map_ram_nosync
  rw [hp]
  exact ⟨rfl, rfl⟩

/-- Witness of C17: the stub module loaded into `initCpu0`. -/
theorem c17_map_ram_sync_flag_witness :
    tlmu_load (stubWorld stubFiles stubModule) 5 initCpu0 "lib/x.so" = some stubLoad
    ∧ stubLoad.ret = 0
    ∧ ∃ m f, stubLoad.q.dl_handle = some m ∧ m.lookup "tlm_map_ram" = some f
      ∧ ∀ {σ : Type} (code : ModuleCode σ) (name : String) (addr size : Nat) (rw : Int) (s : σ),
          tlmu_map_ram code stubLoad.q name addr size rw s
              = some ((code (BridgeCall.map_ram f name addr size rw 0) s).2,
                      [BridgeCall.map_ram f name addr size rw 0])
          ∧ tlmu_map_ram_nosync code stubLoad.q name addr size rw s
              = some ((code (BridgeCall.map_ram f name addr size rw 1) s).2,
                      [BridgeCall.map_ram f name addr size rw 1]) :=
  ⟨rfl, rfl, c17_map_ram_sync_flag (stubWorld stubFiles stubModule) 5 initCpu0 "lib/x.so"
    stubLoad rfl rfl⟩

/-! ## Copy loop under failing and short system calls (C18, C19) -/

theorem copyLoop_read_error (w : World) (src dst : String)
    (h : ∀ n, w.reads n = ReadOutcome.error Errno.EOTHER) :
    ∀ (fuel : Nat) (st : CopyState), copyLoop w src dst fuel st = none := by
  intro fuel
  induction fuel with
  | zero =>
    intro st
    rfl
  | succ fuel ih =>
    intro st
    have hr : sysRead w src st = (-1, Errno.EOTHER, [], { st with nread := st.nread + 1 }) := by
      unfold sysRead
      rw [h]
    rw [copyLoop, hr]
    simp only [Int.reduceNeg, Left.neg_neg_iff, zero_lt_one, reduceCtorEq, or_self, and_false,
      if_false, gt_iff_lt, Left.neg_pos_iff, Int.reduceLT, ne_eq, Int.reduceEq,
      not_false_eq_true, if_true]
    exact ih _

/-- C18, the code at the failing input: every `read` of the source returns
`-1` with an error other than `EINTR` and `EAGAIN`; whatever the fuel, the copy
loop of `copylib` has not ended: each pass calls `read` again. -/
theorem c18_read_error_never_ends :
    (∀ n, readErrorWorld.reads n = ReadOutcome.error Errno.EOTHER)
    ∧ ∀ fuel, copylib readErrorWorld fuel "lib/x.so" ".tlmu/x.so-cpu0" = none := by
  refine ⟨fun _ => rfl, ?_⟩
  intro fuel
  have hres : resolveSource readErrorWorld "lib/x.so" = some "lib/x.so" := by decide
  unfold copylib
  rw [hres]
  simp only
  rw [if_pos (by decide), if_pos (by decide)]
  rw [copyLoop_read_error readErrorWorld _ _ (fun _ => rfl)]


/-- C19, the code at the failing input: the source holds the three bytes
`1, 2, 3`, read in one chunk; the first `write` takes one byte, the second
takes all it is given. The inner loop passes `buf` and `r` again, and the
destination ends with the four bytes `1, 1, 2, 3`. -/
theorem c19_short_write_repeats_bytes :
    shortWriteWorld.writes 0 = WriteOutcome.short 0
    ∧ (copylib shortWriteWorld 5 "lib/x.so" ".tlmu/x.so-cpu0").map
        (fun r => (r.1, r.2 "lib/x.so", r.2 ".tlmu/x.so-cpu0"))
      = some (CopyExit.copied, some [1, 2, 3], some [1, 1, 2, 3]) := by
  decide


/-! ## Interrupt lines of the Zynq board (C20) -/

theorem zynq_irq_loop_done (fuel c1 : Nat) : zynq_irq_loop fuel 16 c1 = [] := by
  cases fuel <;> simp [zynq_irq_loop]

/-- C20: when the interrupt controller is found, `zynq_get_irqs` makes sixteen
requests, the `i`-th for slot `i` with the cells `(0, c_i, 0)`, where `c_i` is
`29 + i` for `i < 8` and `52 + (i - 8)` from `8` on; the numbers `c_i + 32` are
`61` to `68` followed by `84` to `91`, all distinct; and the loop makes no
further request with more fuel. -/
theorem c20_zynq_irq_cells :
    zynq_get_irqs true true 16
      = some ((List.range 16).map fun i =>
          { slot := i, cells := (0, if i < 8 then 29 + i else 52 + (i - 8), 0),
            ncells := 3, max := 1 })
    ∧ (zynq_get_irqs true true 16).map List.length = some 16
    ∧ (zynq_get_irqs true true 16).map (List.map fun r => r.cells.2.1 + 32)
      = some [61, 62, 63, 64, 65, 66, 67, 68, 84, 85, 86, 87, 88, 89, 90, 91]
    ∧ [61, 62, 63, 64, 65, 66, 67, 68, 84, 85, 86, 87, 88, 89, 90, 91].Nodup
    ∧ (∀ k, zynq_get_irqs true true (k + 16) = zynq_get_irqs true true 16)
    ∧ (∀ fuel, zynq_get_irqs false true fuel = none ∧ zynq_get_irqs true false fuel = none) := by
  refine ⟨by decide, by decide, by decide, by decide, ?_, ?_⟩
  · intro k
    simp [zynq_get_irqs, zynq_irq_loop, zynq_irq_loop_done]
  · intro fuel
    exact ⟨rfl, rfl⟩

/-! ## Boot CPU of the Zynq board (C21) -/

theorem wrapInt_range (x : Int) : -2147483648 ≤ wrapInt x ∧ wrapInt x < 2147483648 := by
  unfold wrapInt
  omega

theorem bootCpuLoop_drop {α : Type} (cpus : List α) :
    ∀ boot_cpu : Int, -2147483648 ≤ boot_cpu → boot_cpu < 2147483648 →
      bootCpuLoop cpus boot_cpu = cpus.drop (boot_cpu % 4294967296).toNat := by
  induction cpus with
  | nil =>
    intro b _ _
    simp [bootCpuLoop]
  | cons c rest ih =>
    intro b h1 h2
    by_cases hb : b = 0
    · subst hb
      simp [bootCpuLoop]
    · rw [bootCpuLoop, if_pos hb, ih _ (wrapInt_range _).1 (wrapInt_range _).2]
      have hk : (b % 4294967296).toNat = (wrapInt (b - 1) % 4294967296).toNat + 1 := by
        unfold wrapInt
        omega
      rw [hk, List.drop_succ_cons]

/-- The initial value of `boot_cpu` is an `int`, whatever the option holds,
and a small option value is taken as it is. -/
theorem bootCpuOfOption_range (v : Nat) :
    -2147483648 ≤ bootCpuOfOption v ∧ bootCpuOfOption v < 2147483648
    ∧ (v < 2147483648 → bootCpuOfOption v = v) := by
  unfold bootCpuOfOption wrapInt
  omega

/-- C21: for a CPU list of `n` CPUs, `n` below `2 ^ 31`, and every `int` value
of `boot_cpu`, the loop of `tlm_zynq_init` makes the CPU at position `boot_cpu`
the primary CPU when `0 <= boot_cpu < n`, and ends with `cs == NULL`, on the
exit `Specified boot CPU is out of range!`, when `boot_cpu >= n` or
`boot_cpu < 0`. -/
theorem c21_boot_cpu_selection {α : Type} (cpus : List α) (boot_cpu : Int)
    (hlo : -2147483648 ≤ boot_cpu) (hhi : boot_cpu < 2147483648)
    (hn : cpus.length < 2147483648) :
    (0 ≤ boot_cpu ∧ boot_cpu < cpus.length →
      ∃ c, cpus[boot_cpu.toNat]? = some c ∧ selectBootCpu cpus boot_cpu = BootCpu.primary c)
    ∧ (boot_cpu < 0 ∨ (cpus.length : Int) ≤ boot_cpu →
      selectBootCpu cpus boot_cpu = BootCpu.outOfRange) := by
  have hd := bootCpuLoop_drop cpus boot_cpu hlo hhi
  constructor
  · rintro ⟨h0, hlt⟩
    have hk : (boot_cpu % 4294967296).toNat = boot_cpu.toNat := by omega
    have hlt1 : boot_cpu.toNat < cpus.length := by omega
    refine ⟨cpus[boot_cpu.toNat], by simp [hlt1], ?_⟩
    unfold selectBootCpu
    rw [hd, hk, List.drop_eq_getElem_cons hlt1]
  · intro h
    have hge : cpus.length ≤ (boot_cpu % 4294967296).toNat := by omega
    unfold selectBootCpu
    rw [hd, List.drop_of_length_le hge]

/-- Witness of C21: four CPUs, boot CPU `2`. -/
theorem c21_boot_cpu_selection_witness :
    (-2147483648 : Int) ≤ 2 ∧ (2 : Int) < 2147483648
    ∧ ["cpu0", "cpu1", "cpu2", "cpu3"].length < 2147483648
    ∧ (0 ≤ (2 : Int) ∧ (2 : Int) < ["cpu0", "cpu1", "cpu2", "cpu3"].length →
      ∃ c, ["cpu0", "cpu1", "cpu2", "cpu3"][(2 : Int).toNat]? = some c
        ∧ selectBootCpu ["cpu0", "cpu1", "cpu2", "cpu3"] 2 = BootCpu.primary c)
    ∧ ((2 : Int) < 0 ∨ (["cpu0", "cpu1", "cpu2", "cpu3"].length : Int) ≤ 2 →
      selectBootCpu ["cpu0", "cpu1", "cpu2", "cpu3"] 2 = BootCpu.outOfRange) :=
  ⟨by decide, by decide, by decide,
    c21_boot_cpu_selection ["cpu0", "cpu1", "cpu2", "cpu3"] 2 (by decide) (by decide) (by decide)⟩

/-- The selection on four CPUs, evaluated: position `2`, position `0`, and the
three values `4`, `-1` and the least `int`, which are out of range. -/
theorem boot_cpu_selection_evaluated :
    selectBootCpu ["cpu0", "cpu1", "cpu2", "cpu3"] 2 = BootCpu.primary "cpu2"
    ∧ selectBootCpu ["cpu0", "cpu1", "cpu2", "cpu3"] 0 = BootCpu.primary "cpu0"
    ∧ selectBootCpu ["cpu0", "cpu1", "cpu2", "cpu3"] 4 = BootCpu.outOfRange
    ∧ selectBootCpu ["cpu0", "cpu1", "cpu2", "cpu3"] (-1) = BootCpu.outOfRange
    ∧ selectBootCpu ["cpu0", "cpu1", "cpu2", "cpu3"] (-2147483648) = BootCpu.outOfRange
    ∧ selectBootCpu ([] : List String) 0 = BootCpu.outOfRange := by
  decide

end TLMu
